import Mathlib

/-!
Verification development for the real-time interview assistant backend
(`backend/app`): a shallow embedding of the answer post-processing function
(`services/ai_service.py`), the three provider services with their fallback
loops (`services/speech_service.py`, `services/translation_service.py`,
`services/ai_service.py`), and the per-chunk WebSocket pipeline
(`main.py:process_audio_chunk`), together with theorems checking the
documented properties.

Modelling conventions:
* Python `str` values carrying free text are `List Char`; short identifiers
  (provider names, language codes, styles, message labels) are Lean `String`.
* Python floats carrying confidences are `Rat`; the source literals
  0.9, 0.8, 0.95, 0.85 are the rationals 9/10, 8/10, 19/20, 17/20.
  The float comparison `last_period > len(answer) * 0.7` is modelled as the
  exact rational comparison `last_period * 10 > len * 7`; the one-ulp
  rounding of the binary64 literal 0.7 and of the product is dropped, and no
  theorem below depends on which branch of that comparison is taken.
* Wall-clock fields (`processing_time`, timestamps) are omitted: no checked
  property mentions them.
* Provider adapter calls are network-bound; they are modelled as oracles
  `Req → Except Unit Raw`, with `Except.error` standing for a raised
  exception.
-/

/-! ## Python text primitives used by `_post_process_answer` -/

/-- Whitespace in the sense of Python `str.split` / `str.strip`
(ASCII whitespace: space, tab, LF, CR, VT, FF). -/
def isPySpace (c : Char) : Bool :=
  c = ' ' || c = Char.ofNat 9 || c = Char.ofNat 10 || c = Char.ofNat 13 ||
    c = Char.ofNat 11 || c = Char.ofNat 12

/-- Accumulator worker for `splitWs` (the accumulator holds the current word,
reversed). -/
def splitWsAux : List Char → List Char → List (List Char)
  | [], acc => if acc = [] then [] else [acc.reverse]
  | c :: cs, acc =>
    if isPySpace c then
      if acc = [] then splitWsAux cs [] else acc.reverse :: splitWsAux cs []
    else
      splitWsAux cs (c :: acc)

/-- Python `s.split()` with no argument: split on runs of whitespace,
discarding empty fields. -/
def splitWs (l : List Char) : List (List Char) :=
  splitWsAux l []

/-- Python `' '.join(words)`. -/
def joinWords : List (List Char) → List Char
  | [] => []
  | u :: us =>
    match us with
    | [] => u
    | _ :: _ => u ++ ' ' :: joinWords us

/-- Python slice `l[:n]`, including the negative-index convention:
`l[:n]` for `n < 0` is `l[:len(l)+n]` (empty when `len(l) + n ≤ 0`). -/
def pySliceTo {α : Type} (n : Int) (l : List α) : List α :=
  if 0 ≤ n then l.take n.toNat else l.take (l.length + n).toNat

/-- Python `s.strip()`: remove leading and trailing whitespace. -/
def pyStrip (l : List Char) : List Char :=
  ((l.dropWhile isPySpace).reverse.dropWhile isPySpace).reverse

/-- Python `s.endswith(c)` for a single character `c`. -/
def endsWithChar (l : List Char) (c : Char) : Bool :=
  match l.getLast? with
  | some d => d = c
  | none => false

/-- Python `s.endswith(('.', '!', '?'))`. -/
def endsTerm (l : List Char) : Bool :=
  endsWithChar l '.' || endsWithChar l '!' || endsWithChar l '?'

/-- Python `s.rfind(ch)`: highest index of `ch` in `s`, or `-1`. -/
def pyRfind (ch : Char) : List Char → Int
  | [] => -1
  | c :: cs =>
    let r := pyRfind ch cs
    if 0 ≤ r then r + 1
    else if c = ch then 0 else -1

/-- Source `AIAnswerService._post_process_answer` (`ai_service.py`, lines 170-190),
with `max_length` the value of `request.max_length`:

    answer = ' '.join(answer.split())
    if len(answer.split()) > request.max_length:
        words = answer.split()[:request.max_length]
        answer = ' '.join(words)
        if not answer.endswith('.'):
            last_period = answer.rfind('.')
            if last_period > len(answer) * 0.7:
                answer = answer[:last_period + 1]
    if not answer.endswith(('.', '!', '?')):
        answer += '.'
    return answer.strip()
-/
def post_process_answer (max_length : Int) (answer0 : List Char) : List Char :=
  let answer1 := joinWords (splitWs answer0)
  let answer2 :=
    if max_length < ((splitWs answer1).length : Int) then
      let words := pySliceTo max_length (splitWs answer1)
      let t := joinWords words
      if endsWithChar t '.' = false then
        let last_period := pyRfind '.' t
        if last_period * 10 > (t.length : Int) * 7 then
          t.take (last_period + 1).toNat
        else t
      else t
    else answer1
  let answer3 := if endsTerm answer2 then answer2 else answer2 ++ ['.']
  pyStrip answer3

/-! ## Language helpers (`translation_service.py`) -/

/-- Python `lang.split('-')[0]`: the prefix of `lang` before the first `'-'`. -/
def langBase (lang : String) : List Char :=
  lang.data.takeWhile (fun c => c ≠ '-')

/-- Source `is_translation_needed` (`translation_service.py`, lines 303-312). -/
def is_translation_needed (source_lang target_lang : String) : Bool :=
  if source_lang = target_lang then false
  else langBase source_lang ≠ langBase target_lang

/-! ## Requests, responses and raw provider results (`models/schemas.py`)

`processing_time` fields are omitted (wall clock).  The `Raw` structures are
the dictionaries the provider adapters return; optional keys read with
`result.get(key, default)` are `Option` fields. -/

/-- Schema `TranscriptionRequest`. -/
structure TranscriptionRequest where
  audio_data : List Char
  language : String
  provider : String
deriving DecidableEq

/-- Schema `TranscriptionResponse` (minus `processing_time`). -/
structure TranscriptionResponse where
  text : List Char
  confidence : Rat
  language : String
  provider : String
deriving DecidableEq

/-- Schema `TranslationRequest`. -/
structure TranslationRequest where
  text : List Char
  source_language : String
  target_language : String
  provider : String
deriving DecidableEq

/-- Schema `TranslationResponse` (minus `processing_time`). -/
structure TranslationResponse where
  original_text : List Char
  translated_text : List Char
  source_language : String
  target_language : String
  confidence : Rat
  provider : String
deriving DecidableEq

/-- Schema `AnswerGenerationRequest` (`context` is only interpolated into the
prompt, which the provider oracle absorbs). -/
structure AnswerGenerationRequest where
  question : List Char
  style : String
  max_length : Int
  language : String
  provider : String
deriving DecidableEq

/-- Schema `AnswerGenerationResponse` (minus `processing_time` and `metadata`). -/
structure AnswerGenerationResponse where
  question : List Char
  answer : List Char
  confidence : Rat
  provider : String
deriving DecidableEq

/-- Dictionary returned by an STT provider's `transcribe`. -/
structure SttRaw where
  text : List Char
  confidence : Option Rat
  language : Option String
deriving DecidableEq

/-- Dictionary returned by a translation provider's `translate`. -/
structure TranslationRaw where
  translated_text : List Char
  source_language : Option String
  confidence : Option Rat
deriving DecidableEq

/-- Dictionary returned by an AI provider's `generate`. -/
structure AnswerRaw where
  answer : List Char
  confidence : Option Rat
deriving DecidableEq

/-- Errors a service entry point can raise: `ValueError(f"Provider {p} not
available")`, or `Exception(msg)` after the fallback chain is exhausted. -/
inductive SvcError where
  | providerNotAvailable (provider : String)
  | allFailed (message : String)
deriving DecidableEq

/-- Python `str(e)` for the exceptions above. -/
def errString : SvcError → String
  | .providerNotAvailable p => "Provider " ++ p ++ " not available"
  | .allFailed m => m

/-- The `self.providers` dictionary: association list from provider name to the
adapter's call, an oracle `Req → Except Unit Raw` (`Except.error` = the call
raised). -/
def plookup {α : Type} : List (String × α) → String → Option α
  | [], _ => none
  | (k, v) :: rest, key => if k = key then some v else plookup rest key

/-! ## The `_try_fallback` loop

`speech_service.py` lines 94-122, `translation_service.py` lines 95-125 and
`ai_service.py` lines 192-226 are textually parallel:

    for provider_name in fallback_order:
        if provider_name == request.provider or provider_name not in self.providers:
            continue
        try:
            provider = self.providers[provider_name]
            request.provider = provider_name
            result = await provider.<call>(request)
            return <response built from result, provider_name>
        except Exception:
            continue
    raise Exception("All <capability> providers failed")

`try_fallback` models the loop once, generically over the request type `ρ`:
`getp`/`setp` read and overwrite the request's `provider` field (the loop
mutates the caller's request in place; the mutated request is returned as
`finalReq`).  `attempts` records the provider names actually called, in
order. -/

/-- Outcome of the fallback loop: result (succeeding provider's name and its
raw result, or exhaustion), the final state of the mutated request, and the
names attempted in order. -/
structure FallbackOut (ρ α : Type) where
  result : Except Unit (String × α)
  finalReq : ρ
  attempts : List String

/-- The `_try_fallback` loop (see section comment). -/
def try_fallback {ρ α : Type} (getp : ρ → String) (setp : ρ → String → ρ)
    (provs : List (String × (ρ → Except Unit α))) :
    List String → ρ → FallbackOut ρ α
  | [], req => ⟨.error (), req, []⟩
  | name :: rest, req =>
    if name = getp req then try_fallback getp setp provs rest req
    else
      match plookup provs name with
      | none => try_fallback getp setp provs rest req
      | some oracle =>
        let req' := setp req name
        match oracle req' with
        | .ok raw => ⟨.ok (name, raw), req', [name]⟩
        | .error _ =>
          let out := try_fallback getp setp provs rest req'
          ⟨out.result, out.finalReq, name :: out.attempts⟩

/-- The `fallback_order` list in `SpeechToTextService._try_fallback`. -/
def stt_fallback_order : List String := ["local", "openai", "google"]

/-- The `fallback_order` list in `TranslationService._try_fallback`. -/
def translation_fallback_order : List String := ["google_free", "google", "deepl"]

/-- The `fallback_order` list in `AIAnswerService._try_fallback`. -/
def ai_fallback_order : List String := ["openai", "anthropic"]

/-- Source `SpeechToTextService._try_fallback` instantiated. -/
def stt_try_fallback (provs : List (String × (TranscriptionRequest → Except Unit SttRaw)))
    (req : TranscriptionRequest) : FallbackOut TranscriptionRequest SttRaw :=
  try_fallback (fun r => r.provider) (fun r n => { r with provider := n })
    provs stt_fallback_order req

/-- Source `TranslationService._try_fallback` instantiated. -/
def translation_try_fallback
    (provs : List (String × (TranslationRequest → Except Unit TranslationRaw)))
    (req : TranslationRequest) : FallbackOut TranslationRequest TranslationRaw :=
  try_fallback (fun r => r.provider) (fun r n => { r with provider := n })
    provs translation_fallback_order req

/-- Source `AIAnswerService._try_fallback` instantiated. -/
def ai_try_fallback
    (provs : List (String × (AnswerGenerationRequest → Except Unit AnswerRaw)))
    (req : AnswerGenerationRequest) : FallbackOut AnswerGenerationRequest AnswerRaw :=
  try_fallback (fun r => r.provider) (fun r n => { r with provider := n })
    provs ai_fallback_order req

/-! ## Service entry points

Each returns the result together with the final state of the (mutated)
request object. -/

/-- Source `SpeechToTextService.transcribe` (`speech_service.py`, lines 69-92) plus
its fallback path.  Primary-path defaults: `confidence 0.9`,
`language request.language`; fallback-path default confidence is `0.8`. -/
def stt_transcribe (provs : List (String × (TranscriptionRequest → Except Unit SttRaw)))
    (req : TranscriptionRequest) :
    Except SvcError TranscriptionResponse × TranscriptionRequest :=
  match plookup provs req.provider with
  | none => (.error (.providerNotAvailable req.provider), req)
  | some oracle =>
    match oracle req with
    | .ok raw =>
      (.ok { text := raw.text, confidence := raw.confidence.getD (9/10),
             language := raw.language.getD req.language, provider := req.provider }, req)
    | .error _ =>
      let out := stt_try_fallback provs req
      match out.result with
      | .ok (name, raw) =>
        (.ok { text := raw.text, confidence := raw.confidence.getD (8/10),
               language := raw.language.getD req.language, provider := name },
         out.finalReq)
      | .error _ => (.error (.allFailed "All STT providers failed"), out.finalReq)

/-- Source `TranslationService.translate` (`translation_service.py`, lines 68-93)
plus its fallback path. -/
def translation_translate
    (provs : List (String × (TranslationRequest → Except Unit TranslationRaw)))
    (req : TranslationRequest) :
    Except SvcError TranslationResponse × TranslationRequest :=
  match plookup provs req.provider with
  | none => (.error (.providerNotAvailable req.provider), req)
  | some oracle =>
    match oracle req with
    | .ok raw =>
      (.ok { original_text := req.text, translated_text := raw.translated_text,
             source_language := raw.source_language.getD req.source_language,
             target_language := req.target_language,
             confidence := raw.confidence.getD (9/10), provider := req.provider }, req)
    | .error _ =>
      let out := translation_try_fallback provs req
      match out.result with
      | .ok (name, raw) =>
        (.ok { original_text := req.text, translated_text := raw.translated_text,
               source_language := raw.source_language.getD req.source_language,
               target_language := req.target_language,
               confidence := raw.confidence.getD (8/10), provider := name },
         out.finalReq)
      | .error _ =>
        (.error (.allFailed "All translation providers failed"), out.finalReq)

/-- Source `AIAnswerService.generate_answer` (`ai_service.py`, lines 117-156) plus
its fallback path.  The prompt formatting is a pure function of the request
absorbed into the provider oracle; the generated answer is post-processed
with the request's `max_length`. -/
def ai_generate_answer
    (provs : List (String × (AnswerGenerationRequest → Except Unit AnswerRaw)))
    (req : AnswerGenerationRequest) :
    Except SvcError AnswerGenerationResponse × AnswerGenerationRequest :=
  match plookup provs req.provider with
  | none => (.error (.providerNotAvailable req.provider), req)
  | some oracle =>
    match oracle req with
    | .ok raw =>
      (.ok { question := req.question,
             answer := post_process_answer req.max_length raw.answer,
             confidence := raw.confidence.getD (9/10), provider := req.provider }, req)
    | .error _ =>
      let out := ai_try_fallback provs req
      match out.result with
      | .ok (name, raw) =>
        (.ok { question := out.finalReq.question,
               answer := post_process_answer out.finalReq.max_length raw.answer,
               confidence := raw.confidence.getD (8/10), provider := name },
         out.finalReq)
      | .error _ => (.error (.allFailed "All AI providers failed"), out.finalReq)

/-! ## Provider initialization and the mock adapters -/

/-- Source `MockSTTProvider.transcribe` (`speech_service.py`, lines 289-301):
deterministic canned transcription, confidence `0.95`. -/
def mock_stt_transcribe (req : TranscriptionRequest) : Except Unit SttRaw :=
  .ok { text := ("This is a mock transcription for testing purposes.").data,
        confidence := some (19/20),
        language := some (if req.language ≠ "auto" then req.language else "en") }

/-- Source `MockTranslationProvider.translate` (`translation_service.py`,
lines 315-335). -/
def mock_translation_translate (req : TranslationRequest) : Except Unit TranslationRaw :=
  .ok { translated_text :=
          if req.target_language = "zh" then ("[中文翻译] ").data ++ req.text
          else if req.target_language = "en" then ("[English Translation] ").data ++ req.text
          else ("[" ++ req.target_language.toUpper ++ " Translation] ").data ++ req.text,
        source_language := some req.source_language,
        confidence := some (9/10) }

/-- Whether `needle` is a contiguous run of `haystack` starting at its head
(helper for the Python `in` test). -/
def listStartsWith : List Char → List Char → Bool
  | [], _ => true
  | _, [] => false
  | n :: ns, h :: hs => n = h && listStartsWith ns hs

/-- Python `needle in haystack` on strings: contiguous substring test. -/
def listHasInfix (needle : List Char) : List Char → Bool
  | [] => listStartsWith needle []
  | h :: hs => listStartsWith needle (h :: hs) || listHasInfix needle hs

/-- Source `MockAIProvider.generate` (`ai_service.py`, lines 339-367): canned answer
chosen by substring tests on the lower-cased question, confidence `0.85`. -/
def mock_ai_generate (req : AnswerGenerationRequest) : Except Unit AnswerRaw :=
  let q := req.question.map Char.toLower
  let answer :=
    if listHasInfix ("tell me about yourself").data q ||
        listHasInfix ("introduce yourself").data q then
      ("I am a dedicated professional with strong communication skills and a passion for continuous learning. I believe my experience and enthusiasm make me a great fit for this role.").data
    else if listHasInfix ("why do you want").data q then
      ("I am excited about this opportunity because it aligns perfectly with my career goals and allows me to contribute my skills while growing professionally.").data
    else if listHasInfix ("strength").data q then
      ("One of my key strengths is my ability to work collaboratively while maintaining attention to detail. I consistently deliver high-quality results under pressure.").data
    else if listHasInfix ("weakness").data q then
      ("I sometimes focus too much on perfecting details, but I've learned to balance thoroughness with meeting deadlines effectively.").data
    else if listHasInfix ("experience").data q then
      ("In my previous roles, I have successfully managed projects and collaborated with diverse teams to achieve challenging goals and deliver excellent results.").data
    else
      ("That's an excellent question. Based on my experience and understanding of the role, I believe the key is to approach challenges systematically while maintaining clear communication with stakeholders.").data
  .ok { answer := answer, confidence := some (17/20) }

/-- Source `SpeechToTextService._initialize_providers` (`speech_service.py`,
lines 39-67): register each real adapter whose credentials/dependencies are
available (`some oracle`), in source order openai, google, local; if none,
register exactly the mock. -/
def stt_initialize_providers
    (openai google whisperLocal : Option (TranscriptionRequest → Except Unit SttRaw)) :
    List (String × (TranscriptionRequest → Except Unit SttRaw)) :=
  let l := (match openai with | some o => [("openai", o)] | none => []) ++
           (match google with | some o => [("google", o)] | none => []) ++
           (match whisperLocal with | some o => [("local", o)] | none => [])
  if l.isEmpty then [("mock", mock_stt_transcribe)] else l

/-- Source `TranslationService._initialize_providers` (`translation_service.py`,
lines 38-66): source order google, deepl, google_free; mock if none. -/
def translation_initialize_providers
    (google deepl google_free : Option (TranslationRequest → Except Unit TranslationRaw)) :
    List (String × (TranslationRequest → Except Unit TranslationRaw)) :=
  let l := (match google with | some o => [("google", o)] | none => []) ++
           (match deepl with | some o => [("deepl", o)] | none => []) ++
           (match google_free with | some o => [("google_free", o)] | none => [])
  if l.isEmpty then [("mock", mock_translation_translate)] else l

/-- Source `AIAnswerService._initialize_providers` (`ai_service.py`, lines 34-55):
source order openai, anthropic; mock if none. -/
def ai_initialize_providers
    (openai anthropic : Option (AnswerGenerationRequest → Except Unit AnswerRaw)) :
    List (String × (AnswerGenerationRequest → Except Unit AnswerRaw)) :=
  let l := (match openai with | some o => [("openai", o)] | none => []) ++
           (match anthropic with | some o => [("anthropic", o)] | none => [])
  if l.isEmpty then [("mock", mock_ai_generate)] else l

/-! ## Settings, sessions and the WebSocket pipeline (`main.py`,
`config/settings.py`) -/

/-- The `Settings` fields the session pipeline reads
(`config/settings.py`). -/
structure Settings where
  default_source_language : String
  default_target_language : String
  stt_provider : String
  translation_provider : String
  answer_style : String
  answer_max_length : Int
deriving DecidableEq

/-- Schema `InterviewSession` as used by the pipeline: the per-session language
configuration (`schemas.py`; `session_id`/timestamps/activity omitted). -/
structure Session where
  source_language : String
  target_language : String
deriving DecidableEq

/-- Schema `ConfigUpdate` (`schemas.py`).  `answer_provider` is accepted by the
schema but never applied by `update_config`, so it is omitted here. -/
structure ConfigUpdate where
  source_language : Option String
  target_language : Option String
  stt_provider : Option String
  translation_provider : Option String
  answer_style : Option String
deriving DecidableEq

/-- Session creation on WebSocket connect (`main.py`, lines 279-285): the
default languages are snapshotted from the global settings. -/
def createSession (st : Settings) : Session :=
  { source_language := st.default_source_language,
    target_language := st.default_target_language }

/-- Source `update_config` (`main.py`, lines 158-178): the `POST /config/update`
endpoint mutates the global settings field-wise.  Each field is guarded by a
Python truthiness test (`if config.source_language:`), so an absent field
(`none`, the schema default `None`) and an empty-string value are both
ignored. -/
def update_config (st : Settings) (cfg : ConfigUpdate) : Settings :=
  let st := match cfg.source_language with
    | some v => if v = "" then st else { st with default_source_language := v }
    | none => st
  let st := match cfg.target_language with
    | some v => if v = "" then st else { st with default_target_language := v }
    | none => st
  let st := match cfg.stt_provider with
    | some v => if v = "" then st else { st with stt_provider := v }
    | none => st
  let st := match cfg.translation_provider with
    | some v => if v = "" then st else { st with translation_provider := v }
    | none => st
  match cfg.answer_style with
  | some v => if v = "" then st else { st with answer_style := v }
  | none => st

/-- Outbound WebSocket frames sent by the pipeline (`send_message` payloads
in `main.py`; `session_id`, timestamps and `processing_time` omitted).  The
`transcription` frame carries exactly text, confidence and language — it has
no provider field. -/
inductive Event where
  | transcription (text : List Char) (confidence : Rat) (language : String)
  | translation (original_text translated_text : List Char)
      (source_language target_language : String) (confidence : Rat)
  | answer (question answer : List Char) (confidence : Rat) (style : String)
  | error (error message : String)
  | config_updated (source_language target_language : String)
deriving DecidableEq

/-- Is the frame a `translation` frame? -/
def Event.isTranslation : Event → Bool
  | .translation _ _ _ _ _ => true
  | _ => false

/-- Is the frame an `error` frame? -/
def Event.isError : Event → Bool
  | .error _ _ => true
  | _ => false

/-- Is the frame an `answer` frame? -/
def Event.isAnswer : Event → Bool
  | .answer _ _ _ _ => true
  | _ => false

/-- One pipeline run for one audio chunk: the frames sent to the client, in
order, plus whether the translation and answer-generation capabilities were
invoked (`translation_service.translate` / `ai_service.generate_answer`
called). -/
structure PipelineRun where
  events : List Event
  translateCalled : Bool
  answerCalled : Bool
deriving DecidableEq

/-- The `TranscriptionRequest` built by `process_audio_chunk`
(`main.py`, lines 349-353). -/
def pipelineTranscriptionRequest (st : Settings) (session : Session)
    (audio_data : List Char) : TranscriptionRequest :=
  { audio_data := audio_data, language := session.source_language,
    provider := st.stt_provider }

/-- The `TranslationRequest` built by `process_audio_chunk`
(`main.py`, lines 370-375): the source language is the *detected* language
reported by the transcription response. -/
def pipelineTranslationRequest (st : Settings) (session : Session)
    (tr : TranscriptionResponse) : TranslationRequest :=
  { text := tr.text, source_language := tr.language,
    target_language := session.target_language,
    provider := st.translation_provider }

/-- The `AnswerGenerationRequest` built by `process_audio_chunk`
(`main.py`, lines 394-400): the provider is hardcoded to `"openai"`. -/
def pipelineAnswerRequest (st : Settings) (session : Session)
    (question : List Char) : AnswerGenerationRequest :=
  { question := question, style := st.answer_style,
    max_length := st.answer_max_length, language := session.target_language,
    provider := "openai" }

/-- Source `process_audio_chunk` (`main.py`, lines 337-415) for a live session.
`audio_data = none` models an absent `audio_data` key; the empty string is
likewise falsy.  A raised service exception is caught by the surrounding
`try` and surfaces as a single `error` frame labelled `"Pipeline error"`
with `str(e)` as the message.  Translation runs iff the session's configured
source and target languages differ as exact strings. -/
def process_audio_chunk
    (st : Settings)
    (sttProvs : List (String × (TranscriptionRequest → Except Unit SttRaw)))
    (trProvs : List (String × (TranslationRequest → Except Unit TranslationRaw)))
    (aiProvs : List (String × (AnswerGenerationRequest → Except Unit AnswerRaw)))
    (session : Session) (audio_data : Option (List Char)) : PipelineRun :=
  match audio_data with
  | none => ⟨[], false, false⟩
  | some ad =>
    if ad = [] then ⟨[], false, false⟩
    else
      match stt_transcribe sttProvs (pipelineTranscriptionRequest st session ad) with
      | (.error e, _) => ⟨[.error "Pipeline error" (errString e)], false, false⟩
      | (.ok tr, _) =>
        let ev1 := Event.transcription tr.text tr.confidence tr.language
        if pyStrip tr.text = [] then ⟨[ev1], false, false⟩
        else if session.source_language ≠ session.target_language then
          match translation_translate trProvs (pipelineTranslationRequest st session tr) with
          | (.error e, _) => ⟨[ev1, .error "Pipeline error" (errString e)], true, false⟩
          | (.ok tl, _) =>
            let ev2 := Event.translation tl.original_text tl.translated_text
              tl.source_language tl.target_language tl.confidence
            match ai_generate_answer aiProvs
                (pipelineAnswerRequest st session tl.translated_text) with
            | (.error e, _) =>
              ⟨[ev1, ev2, .error "Pipeline error" (errString e)], true, true⟩
            | (.ok ans, _) =>
              ⟨[ev1, ev2,
                .answer ans.question ans.answer ans.confidence st.answer_style],
               true, true⟩
        else
          match ai_generate_answer aiProvs
              (pipelineAnswerRequest st session tr.text) with
          | (.error e, _) => ⟨[ev1, .error "Pipeline error" (errString e)], false, true⟩
          | (.ok ans, _) =>
            ⟨[ev1, .answer ans.question ans.answer ans.confidence st.answer_style],
             false, true⟩

/-- The WebSocket receive loop for one session, restricted to `audio_chunk`
frames (`main.py`, lines 298-334): chunks are processed strictly in order,
and a failed chunk does not tear the session down — later chunks are still
processed. -/
def handleChunks (st : Settings)
    (sttProvs : List (String × (TranscriptionRequest → Except Unit SttRaw)))
    (trProvs : List (String × (TranslationRequest → Except Unit TranslationRaw)))
    (aiProvs : List (String × (AnswerGenerationRequest → Except Unit AnswerRaw)))
    (session : Session) : List (Option (List Char)) → List Event
  | [] => []
  | c :: cs =>
    (process_audio_chunk st sttProvs trProvs aiProvs session c).events ++
      handleChunks st sttProvs trProvs aiProvs session cs

/-- Source `update_session_config` (`main.py`, lines 418-432): a session-scoped
`config_update` frame overrides the session's languages and acknowledges
with a `config_updated` frame. -/
def update_session_config (session : Session)
    (source_language target_language : Option String) : Session × Event :=
  let s := match source_language with
    | some v => { session with source_language := v } | none => session
  let s := match target_language with
    | some v => { s with target_language := v } | none => s
  (s, .config_updated s.source_language s.target_language)

/-- Well-formed word lists: what `splitWs` produces and `joinWords`
round-trips — every word nonempty and whitespace-free. -/
def WfWords (ws : List (List Char)) : Prop :=
  ∀ u ∈ ws, u ≠ [] ∧ ∀ c ∈ u, isPySpace c = false

/-! ## Lemmas about the text primitives -/

theorem length_dropWhile_le {α : Type} (p : α → Bool) (l : List α) :
    (l.dropWhile p).length ≤ l.length := by
  induction l with
  | nil => simp
  | cons a l ih =>
    rw [List.dropWhile_cons]
    by_cases hp : p a = true
    · simp only [hp, if_true]
      exact le_trans ih (Nat.le_succ _)
    · simp [hp]

theorem splitWs_nil : splitWs [] = [] := rfl

theorem splitWs_cons_space {c : Char} {cs : List Char} (h : isPySpace c = true) :
    splitWs (c :: cs) = splitWs cs := by
  simp [splitWs, splitWsAux, h]

theorem splitWsAux_acc (l : List Char) : ∀ acc : List Char, acc ≠ [] →
    splitWsAux l acc =
      (acc.reverse ++ l.takeWhile (fun d => !isPySpace d)) ::
        splitWs (l.dropWhile (fun d => !isPySpace d)) := by
  induction l with
  | nil =>
    intro acc h
    simp [splitWsAux, h, splitWs_nil]
  | cons d l ih =>
    intro acc h
    cases hd : isPySpace d with
    | true =>
      have e1 : splitWsAux (d :: l) acc = acc.reverse :: splitWsAux l [] := by
        simp [splitWsAux, hd, h]
      have e2 : List.takeWhile (fun x => !isPySpace x) (d :: l) = [] := by
        rw [List.takeWhile_cons]
        simp [hd]
      have e3 : List.dropWhile (fun x => !isPySpace x) (d :: l) = d :: l := by
        rw [List.dropWhile_cons]
        simp [hd]
      rw [e1, e2, e3, splitWs_cons_space hd]
      show acc.reverse :: splitWs l = (acc.reverse ++ []) :: splitWs l
      simp
    | false =>
      simp only [splitWsAux, hd, if_false, List.takeWhile_cons,
        List.dropWhile_cons, Bool.not_false, if_true, ite_true]
      rw [ih (d :: acc) (by simp)]
      simp

theorem splitWs_cons_word {c : Char} {cs : List Char} (h : isPySpace c = false) :
    splitWs (c :: cs) =
      (c :: cs.takeWhile (fun d => !isPySpace d)) ::
        splitWs (cs.dropWhile (fun d => !isPySpace d)) := by
  have h1 : splitWs (c :: cs) = splitWsAux cs [c] := by
    simp [splitWs, splitWsAux, h]
  rw [h1, splitWsAux_acc cs [c] (by simp)]
  simp

theorem splitWs_words : ∀ (l : List Char), WfWords (splitWs l)
  | [] => by simp [splitWs_nil, WfWords]
  | c :: cs => by
    cases hc : isPySpace c with
    | true =>
      rw [splitWs_cons_space hc]
      exact splitWs_words cs
    | false =>
      rw [splitWs_cons_word hc]
      intro u hu
      rcases List.mem_cons.mp hu with h | h
      · subst h
        refine ⟨by simp, ?_⟩
        intro x hx
        rcases List.mem_cons.mp hx with rfl | hx
        · exact hc
        · have := List.mem_takeWhile_imp hx
          simpa using this
      · exact splitWs_words (cs.dropWhile (fun d => !isPySpace d)) u h
termination_by l => l.length
decreasing_by
  all_goals simp only [List.length_cons]
  all_goals have := length_dropWhile_le (fun d => !isPySpace d) cs
  all_goals omega

theorem takeWhile_eq_self_of_all {α : Type} {p : α → Bool} {l : List α}
    (h : ∀ a ∈ l, p a = true) : l.takeWhile p = l := by
  induction l with
  | nil => simp
  | cons a l ih =>
    rw [List.takeWhile_cons, if_pos (h a (by simp))]
    rw [ih (fun x hx => h x (List.mem_cons_of_mem a hx))]

theorem dropWhile_eq_nil_of_all {α : Type} {p : α → Bool} {l : List α}
    (h : ∀ a ∈ l, p a = true) : l.dropWhile p = [] := by
  induction l with
  | nil => simp
  | cons a l ih =>
    rw [List.dropWhile_cons, if_pos (h a (by simp))]
    exact ih (fun x hx => h x (List.mem_cons_of_mem a hx))

theorem splitWs_single {u : List Char} (h1 : u ≠ [])
    (h2 : ∀ c ∈ u, isPySpace c = false) : splitWs u = [u] := by
  match u, h1 with
  | c :: cs, _ =>
    rw [splitWs_cons_word (h2 c (by simp))]
    have hall : ∀ d ∈ cs, (!isPySpace d) = true := by
      intro d hd
      simp [h2 d (List.mem_cons_of_mem c hd)]
    rw [takeWhile_eq_self_of_all hall, dropWhile_eq_nil_of_all hall, splitWs_nil]

theorem splitWs_word_sep {u : List Char} (h1 : u ≠ [])
    (h2 : ∀ c ∈ u, isPySpace c = false) (r : List Char) :
    splitWs (u ++ ' ' :: r) = u :: splitWs r := by
  match u, h1 with
  | c :: cs, _ =>
    rw [List.cons_append, splitWs_cons_word (h2 c (by simp))]
    have hall : ∀ d ∈ cs, (!isPySpace d) = true := by
      intro d hd
      simp [h2 d (List.mem_cons_of_mem c hd)]
    have htk : (cs ++ ' ' :: r).takeWhile (fun d => !isPySpace d) = cs := by
      rw [List.takeWhile_append, if_pos]
      · rw [List.takeWhile_cons]
        norm_num [isPySpace]
      · rw [takeWhile_eq_self_of_all hall]
    have hdr : (cs ++ ' ' :: r).dropWhile (fun d => !isPySpace d) = ' ' :: r := by
      rw [List.dropWhile_append, if_pos]
      · rw [List.dropWhile_cons]
        norm_num [isPySpace]
      · rw [dropWhile_eq_nil_of_all hall]
        rfl
    rw [htk, hdr, splitWs_cons_space (by norm_num [isPySpace])]

theorem splitWs_joinWords : ∀ (ws : List (List Char)), WfWords ws →
    splitWs (joinWords ws) = ws
  | [], _ => splitWs_nil
  | [u], h => by
    rw [joinWords]
    exact splitWs_single (h u (by simp)).1 (h u (by simp)).2
  | u :: v :: rest, h => by
    show splitWs (u ++ ' ' :: joinWords (v :: rest)) = _
    rw [splitWs_word_sep (h u (by simp)).1 (h u (by simp)).2]
    rw [splitWs_joinWords (v :: rest) (fun x hx => h x (List.mem_cons_of_mem u hx))]

theorem joinWords_ne_nil {ws : List (List Char)} (h : WfWords ws) (hne : ws ≠ []) :
    joinWords ws ≠ [] := by
  match ws, hne with
  | [u], _ =>
    rw [joinWords]
    exact (h u (by simp)).1
  | u :: v :: rest, _ =>
    show u ++ ' ' :: joinWords (v :: rest) ≠ []
    simp

theorem endsWithChar_iff {l : List Char} {c : Char} :
    endsWithChar l c = true ↔ l.getLast? = some c := by
  unfold endsWithChar
  cases l.getLast? with
  | none => simp
  | some d => simp [decide_eq_true_eq]

theorem endsTerm_last {l : List Char} (h : endsTerm l = true) :
    ∃ t, l.getLast? = some t ∧ isPySpace t = false := by
  unfold endsTerm at h
  rcases Bool.or_eq_true_iff.mp h with h' | h'
  · rcases Bool.or_eq_true_iff.mp h' with h'' | h''
    · exact ⟨'.', endsWithChar_iff.mp h'', by decide⟩
    · exact ⟨'!', endsWithChar_iff.mp h'', by decide⟩
  · exact ⟨'?', endsWithChar_iff.mp h', by decide⟩

theorem endsTerm_concat_dot (x : List Char) : endsTerm (x ++ ['.']) = true := by
  unfold endsTerm endsWithChar
  rw [List.getLast?_concat]
  simp

theorem endsTerm_of_last_dot {l : List Char} (h : l.getLast? = some '.') :
    endsTerm l = true := by
  unfold endsTerm
  rw [Bool.or_eq_true_iff, Bool.or_eq_true_iff]
  exact Or.inl (Or.inl (endsWithChar_iff.mpr h))

theorem dropWhile_id_of_head {l : List Char} {c : Char} (hh : l.head? = some c)
    (hc : isPySpace c = false) : l.dropWhile isPySpace = l := by
  match l with
  | d :: rest =>
    have : d = c := by simpa using hh
    subst this
    rw [List.dropWhile_cons, if_neg (by simp [hc])]

theorem pyStrip_eq_self {l : List Char} (h1 : l.dropWhile isPySpace = l)
    (h2 : l.reverse.dropWhile isPySpace = l.reverse) : pyStrip l = l := by
  unfold pyStrip
  rw [h1, h2, List.reverse_reverse]

theorem joinWords_head {ws : List (List Char)} (h : WfWords ws) (hne : ws ≠ []) :
    ∃ c, (joinWords ws).head? = some c ∧ isPySpace c = false := by
  match ws, hne with
  | u :: us, _ =>
    obtain ⟨hu1, hu2⟩ := h u (by simp)
    match u, hu1 with
    | c :: cs, _ =>
      refine ⟨c, ?_, hu2 c (by simp)⟩
      match us with
      | [] =>
        rw [joinWords]
        rfl
      | v :: rest =>
        show ((c :: cs) ++ ' ' :: joinWords (v :: rest)).head? = some c
        simp

theorem normalized_strip {x : List Char} (hn : joinWords (splitWs x) = x)
    (ht : endsTerm x = true) : pyStrip x = x := by
  obtain ⟨t, hlast, hts⟩ := endsTerm_last ht
  have hxne : x ≠ [] := by
    intro h0
    rw [h0] at hlast
    simp at hlast
  have hwsne : splitWs x ≠ [] := by
    intro h0
    rw [h0] at hn
    exact hxne (by simpa [joinWords] using hn.symm)
  obtain ⟨c, hhead, hcs⟩ := joinWords_head (splitWs_words x) hwsne
  rw [hn] at hhead
  refine pyStrip_eq_self (dropWhile_id_of_head hhead hcs) ?_
  refine dropWhile_id_of_head ?_ hts
  rw [List.head?_reverse]
  exact hlast

theorem join_split_concat : ∀ (ws : List (List Char)), WfWords ws → ws ≠ [] →
    ∀ ch : Char, isPySpace ch = false →
    joinWords (splitWs (joinWords ws ++ [ch])) = joinWords ws ++ [ch] ∧
      (splitWs (joinWords ws ++ [ch])).length = ws.length
  | [u], h, _, ch, hch => by
    rw [joinWords]
    have hu := h u (by simp)
    have h1 : u ++ [ch] ≠ [] := by simp
    have h2 : ∀ c ∈ u ++ [ch], isPySpace c = false := by
      intro c hc
      rcases List.mem_append.mp hc with hc | hc
      · exact hu.2 c hc
      · simp at hc
        subst hc
        exact hch
    rw [splitWs_single h1 h2, joinWords]
    simp
  | u :: v :: rest, h, _, ch, hch => by
    have hu := h u (by simp)
    have htail : WfWords (v :: rest) := fun x hx => h x (List.mem_cons_of_mem u hx)
    have e1 : joinWords (u :: v :: rest) = u ++ ' ' :: joinWords (v :: rest) := by
      rw [joinWords]
    rw [e1, List.append_assoc, List.cons_append]
    rw [splitWs_word_sep hu.1 hu.2]
    obtain ⟨ih1, ih2⟩ := join_split_concat (v :: rest) htail (by simp) ch hch
    constructor
    · match hsp : splitWs (joinWords (v :: rest) ++ [ch]), ih2 with
      | w :: ws', _ =>
        show joinWords (u :: w :: ws') = _
        rw [joinWords]
        rw [hsp] at ih1
        rw [show joinWords (w :: ws') = joinWords (v :: rest) ++ [ch] from ih1]
    · simp only [List.length_cons, ih2]

theorem join_split_take : ∀ (ws : List (List Char)), WfWords ws →
    ∀ (n : Nat) (c : Char),
    ((joinWords ws).take n).getLast? = some c → isPySpace c = false →
    joinWords (splitWs ((joinWords ws).take n)) = (joinWords ws).take n ∧
      (splitWs ((joinWords ws).take n)).length ≤ ws.length
  | [], _, n, c, hlast, _ => by
    rw [joinWords] at hlast
    simp at hlast
  | [u], h, n, c, hlast, hc => by
    rw [joinWords] at hlast ⊢
    have hu := h u (by simp)
    have h1 : u.take n ≠ [] := by
      intro h0
      rw [h0] at hlast
      simp at hlast
    have h2 : ∀ d ∈ u.take n, isPySpace d = false :=
      fun d hd => hu.2 d (List.take_subset n u hd)
    rw [splitWs_single h1 h2, joinWords]
    simp
  | u :: v :: rest, h, n, c, hlast, hc => by
    have hu := h u (by simp)
    have htail : WfWords (v :: rest) := fun x hx => h x (List.mem_cons_of_mem u hx)
    have e1 : joinWords (u :: v :: rest) = u ++ ' ' :: joinWords (v :: rest) := by
      rw [joinWords]
    rw [e1] at hlast ⊢
    rcases Nat.lt_or_ge n (u.length + 1) with hn | hn
    · -- the prefix stays inside the first word
      have etake : (u ++ ' ' :: joinWords (v :: rest)).take n = u.take n := by
        rw [List.take_append_eq_append_take, Nat.sub_eq_zero_of_le (by omega)]
        simp
      rw [etake] at hlast ⊢
      have h1 : u.take n ≠ [] := by
        intro h0
        rw [h0] at hlast
        simp at hlast
      have h2 : ∀ d ∈ u.take n, isPySpace d = false :=
        fun d hd => hu.2 d (List.take_subset n u hd)
      rw [splitWs_single h1 h2, joinWords]
      simp
    · -- the prefix covers the first word and the separator region
      have etake : (u ++ ' ' :: joinWords (v :: rest)).take n =
          u ++ ' ' :: (joinWords (v :: rest)).take (n - u.length - 1) := by
        rw [List.take_append_eq_append_take, List.take_of_length_le (by omega)]
        have hpos : n - u.length = (n - u.length - 1) + 1 := by omega
        rw [hpos, List.take_succ_cons]
        simp only [Nat.add_sub_cancel]
      rw [etake] at hlast ⊢
      have hpfx : (joinWords (v :: rest)).take (n - u.length - 1) ≠ [] := by
        intro h0
        rw [h0] at hlast
        rw [show u ++ [' '] = u ++ [' '] from rfl] at hlast
        have : (u ++ [' ']).getLast? = some ' ' := List.getLast?_concat u
        rw [show (u ++ ' ' :: ([] : List Char)) = u ++ [' '] from rfl, this] at hlast
        have : c = ' ' := by simpa using hlast.symm
        subst this
        exact absurd hc (by decide)
      have hlast' : ((joinWords (v :: rest)).take (n - u.length - 1)).getLast? = some c := by
        match hp : (joinWords (v :: rest)).take (n - u.length - 1), hpfx with
        | p :: ps, _ =>
          rw [hp] at hlast
          rw [List.getLast?_append] at hlast
          simpa using hlast
      obtain ⟨ih1, ih2⟩ := join_split_take (v :: rest) htail (n - u.length - 1) c hlast' hc
      rw [splitWs_word_sep hu.1 hu.2]
      constructor
      · match hsp : splitWs ((joinWords (v :: rest)).take (n - u.length - 1)), ih1 with
        | [], e => exact absurd (by simpa [joinWords] using e.symm) hpfx
        | w :: ws', _ =>
          show joinWords (u :: w :: ws') = _
          rw [joinWords]
          rw [hsp] at ih1
          rw [show joinWords (w :: ws') = (joinWords (v :: rest)).take (n - u.length - 1) from ih1]
      · simp only [List.length_cons] at ih2 ⊢
        omega

theorem pyRfind_eq_of_tail_found {ch c : Char} {cs : List Char}
    (hr : 0 ≤ pyRfind ch cs) : pyRfind ch (c :: cs) = pyRfind ch cs + 1 := by
  simp only [pyRfind]
  rw [if_pos hr]

theorem pyRfind_eq_of_head {ch c : Char} {cs : List Char}
    (hr : ¬ 0 ≤ pyRfind ch cs) (hc : c = ch) : pyRfind ch (c :: cs) = 0 := by
  simp only [pyRfind]
  rw [if_neg hr, if_pos hc]

theorem pyRfind_eq_of_none {ch c : Char} {cs : List Char}
    (hr : ¬ 0 ≤ pyRfind ch cs) (hc : ¬ c = ch) : pyRfind ch (c :: cs) = -1 := by
  simp only [pyRfind]
  rw [if_neg hr, if_neg hc]

theorem pyRfind_spec (ch : Char) : ∀ (l : List Char), 0 ≤ pyRfind ch l →
    pyRfind ch l < (l.length : Int) ∧
      (l.take ((pyRfind ch l) + 1).toNat).getLast? = some ch
  | [], hp => by
    simp [pyRfind] at hp
  | c :: cs, hp => by
    by_cases hr : 0 ≤ pyRfind ch cs
    · obtain ⟨ih1, ih2⟩ := pyRfind_spec ch cs hr
      rw [pyRfind_eq_of_tail_found hr]
      constructor
      · simp only [List.length_cons]
        push_cast
        omega
      · have hk : (pyRfind ch cs + 1 + 1).toNat = (pyRfind ch cs + 1).toNat + 1 := by
          omega
        rw [hk, List.take_succ_cons]
        have hne : cs.take (pyRfind ch cs + 1).toNat ≠ [] := by
          intro h0
          rw [h0] at ih2
          simp at ih2
        match hq : cs.take (pyRfind ch cs + 1).toNat, hne with
        | q :: qs, _ =>
          rw [hq] at ih2
          rw [List.getLast?_cons_cons]
          exact ih2
    · by_cases hc : c = ch
      · rw [pyRfind_eq_of_head hr hc]
        subst hc
        constructor
        · simp only [List.length_cons]
          push_cast
          omega
        · norm_num
      · rw [pyRfind_eq_of_none hr hc] at hp
        omega
theorem step3_invariants {a2 : List Char} {N : Int} (hN : 1 ≤ N)
    (hnorm : joinWords (splitWs a2) = a2)
    (hcount : ((splitWs a2).length : Int) ≤ N) :
    joinWords (splitWs (pyStrip (if endsTerm a2 then a2 else a2 ++ ['.']))) =
        pyStrip (if endsTerm a2 then a2 else a2 ++ ['.']) ∧
      endsTerm (pyStrip (if endsTerm a2 then a2 else a2 ++ ['.'])) = true ∧
      ((splitWs (pyStrip (if endsTerm a2 then a2 else a2 ++ ['.']))).length : Int) ≤ N := by
  by_cases ht : endsTerm a2 = true
  · rw [if_pos ht, normalized_strip hnorm ht]
    exact ⟨hnorm, ht, hcount⟩
  · rw [if_neg ht]
    by_cases ha : splitWs a2 = []
    · have ha2 : a2 = [] := by
        rw [ha] at hnorm
        simpa [joinWords] using hnorm.symm
      subst ha2
      have e : pyStrip ([] ++ ['.']) = ['.'] := by decide
      rw [e]
      refine ⟨by decide, by decide, ?_⟩
      have e2 : (splitWs ['.']).length = 1 := by decide
      rw [e2]
      exact_mod_cast hN
    · obtain ⟨hj1, hj2⟩ := join_split_concat (splitWs a2) (splitWs_words a2) ha '.' (by decide)
      rw [hnorm] at hj1 hj2
      have hterm := endsTerm_concat_dot a2
      rw [normalized_strip hj1 hterm]
      refine ⟨hj1, hterm, ?_⟩
      rw [hj2]
      exact hcount

theorem post_process_invariants (N : Int) (hN : 1 ≤ N) (ans : List Char) :
    joinWords (splitWs (post_process_answer N ans)) = post_process_answer N ans ∧
      endsTerm (post_process_answer N ans) = true ∧
      ((splitWs (post_process_answer N ans)).length : Int) ≤ N := by
  have hw := splitWs_words ans
  have hsj : splitWs (joinWords (splitWs ans)) = splitWs ans := splitWs_joinWords _ hw
  simp only [post_process_answer, hsj]
  by_cases htr : N < ((splitWs ans).length : Int)
  · rw [if_pos htr]
    have hsl : pySliceTo N (splitWs ans) = (splitWs ans).take N.toNat := by
      unfold pySliceTo
      rw [if_pos (by omega)]
    rw [hsl]
    set ws := (splitWs ans).take N.toNat with hws
    have hwsWf : WfWords ws := fun u hu => hw u (List.take_subset _ _ hu)
    have hlen0 : ws.length = N.toNat := by
      rw [hws, List.length_take]
      omega
    have hlen : (ws.length : Int) ≤ N := by
      rw [hlen0]
      omega
    have hsjt : splitWs (joinWords ws) = ws := splitWs_joinWords ws hwsWf
    have hnormt : joinWords (splitWs (joinWords ws)) = joinWords ws := by rw [hsjt]
    have hcountt : ((splitWs (joinWords ws)).length : Int) ≤ N := by
      rw [hsjt]
      exact hlen
    by_cases hdot : endsWithChar (joinWords ws) '.' = false
    · rw [if_pos hdot]
      by_cases hcut :
          pyRfind '.' (joinWords ws) * 10 > ((joinWords ws).length : Int) * 7
      · rw [if_pos hcut]
        have hp0 : 0 ≤ pyRfind '.' (joinWords ws) := by
          have hL : (0 : Int) ≤ ((joinWords ws).length : Int) := Int.ofNat_nonneg _
          omega
        obtain ⟨hplt, hpget⟩ := pyRfind_spec '.' (joinWords ws) hp0
        obtain ⟨hn1, hn2⟩ :=
          join_split_take ws hwsWf ((pyRfind '.' (joinWords ws) + 1).toNat) '.' hpget
            (by decide)
        exact step3_invariants hN hn1 (by omega)
      · rw [if_neg hcut]
        exact step3_invariants hN hnormt hcountt
    · rw [if_neg hdot]
      exact step3_invariants hN hnormt hcountt
  · rw [if_neg htr]
    refine step3_invariants hN (by rw [hsj]) ?_
    rw [hsj]
    omega

theorem post_process_zero (s : List Char) : post_process_answer 0 s = ['.'] := by
  have hsj : splitWs (joinWords (splitWs s)) = splitWs s :=
    splitWs_joinWords _ (splitWs_words s)
  simp only [post_process_answer, hsj]
  by_cases h : (0 : Int) < ((splitWs s).length : Int)
  · rw [if_pos h]
    have hsl : pySliceTo 0 (splitWs s) = [] := by
      unfold pySliceTo
      rw [if_pos le_rfl]
      simp
    rw [hsl]
    decide
  · rw [if_neg h]
    have h0 : (splitWs s).length = 0 := by omega
    have h1 : splitWs s = [] := List.length_eq_zero.mp h0
    rw [h1]
    decide

theorem post_process_fixed {N : Int} {s : List Char}
    (hnorm : joinWords (splitWs s) = s) (ht : endsTerm s = true)
    (hcount : ((splitWs s).length : Int) ≤ N) :
    post_process_answer N s = s := by
  have hne : ¬ N < ((splitWs s).length : Int) := by omega
  simp only [post_process_answer, hnorm, hne, ht, if_true, if_false, ite_true, ite_false]
  exact normalized_strip hnorm ht

theorem post_process_idem {N : Int} (hN : 0 ≤ N) (s : List Char) :
    post_process_answer N (post_process_answer N s) = post_process_answer N s := by
  rcases eq_or_lt_of_le hN with h0 | h1
  · rw [← h0, post_process_zero, post_process_zero]
  · obtain ⟨hn, ht, hc⟩ := post_process_invariants N h1 s
    exact post_process_fixed hn ht hc

/-! ## Lemmas about the fallback loop -/

theorem plookup_mem {α : Type} : ∀ (provs : List (String × α)) {k : String} {v : α},
    plookup provs k = some v → (k, v) ∈ provs
  | [], _, _, h => by simp [plookup] at h
  | (k', v') :: rest, k, v, h => by
    rw [plookup] at h
    by_cases hk : k' = k
    · rw [if_pos hk] at h
      subst hk
      have hv : v' = v := Option.some_inj.mp h
      subst hv
      exact List.mem_cons_self _ _
    · rw [if_neg hk] at h
      exact List.mem_cons_of_mem _ (plookup_mem rest h)

theorem try_fallback_attempts_sublist {ρ α : Type} (getp : ρ → String)
    (setp : ρ → String → ρ) (provs : List (String × (ρ → Except Unit α))) :
    ∀ (order : List String) (req : ρ),
    List.Sublist (try_fallback getp setp provs order req).attempts order
  | [], req => by simp [try_fallback]
  | name :: rest, req => by
    rw [try_fallback]
    by_cases h1 : name = getp req
    · rw [if_pos h1]
      exact List.Sublist.cons name (try_fallback_attempts_sublist getp setp provs rest req)
    · rw [if_neg h1]
      cases hpl : plookup provs name with
      | none =>
        simp only [hpl]
        exact List.Sublist.cons name (try_fallback_attempts_sublist getp setp provs rest req)
      | some oracle =>
        simp only [hpl]
        cases ho : oracle (setp req name) with
        | ok raw =>
          simp only [ho]
          simp
        | error e =>
          simp only [ho]
          exact List.Sublist.cons₂ name
            (try_fallback_attempts_sublist getp setp provs rest (setp req name))

theorem try_fallback_attempts_registered {ρ α : Type} (getp : ρ → String)
    (setp : ρ → String → ρ) (provs : List (String × (ρ → Except Unit α))) :
    ∀ (order : List String) (req : ρ),
    ∀ a ∈ (try_fallback getp setp provs order req).attempts, (plookup provs a).isSome
  | [], req => by simp [try_fallback]
  | name :: rest, req => by
    rw [try_fallback]
    by_cases h1 : name = getp req
    · rw [if_pos h1]
      exact try_fallback_attempts_registered getp setp provs rest req
    · rw [if_neg h1]
      cases hpl : plookup provs name with
      | none =>
        simp only [hpl]
        exact try_fallback_attempts_registered getp setp provs rest req
      | some oracle =>
        simp only [hpl]
        cases ho : oracle (setp req name) with
        | ok raw =>
          simp only [ho]
          intro a ha
          simp at ha
          subst ha
          simp [hpl]
        | error e =>
          simp only [ho]
          intro a ha
          rcases List.mem_cons.mp ha with rfl | ha
          · simp [hpl]
          · exact try_fallback_attempts_registered getp setp provs rest (setp req name) a ha

theorem try_fallback_finalReq_foldl {ρ α : Type} (getp : ρ → String)
    (setp : ρ → String → ρ) (provs : List (String × (ρ → Except Unit α))) :
    ∀ (order : List String) (req : ρ),
    (try_fallback getp setp provs order req).finalReq =
      (try_fallback getp setp provs order req).attempts.foldl setp req
  | [], req => by simp [try_fallback]
  | name :: rest, req => by
    rw [try_fallback]
    by_cases h1 : name = getp req
    · rw [if_pos h1]
      exact try_fallback_finalReq_foldl getp setp provs rest req
    · rw [if_neg h1]
      cases hpl : plookup provs name with
      | none =>
        simp only [hpl]
        exact try_fallback_finalReq_foldl getp setp provs rest req
      | some oracle =>
        simp only [hpl]
        cases ho : oracle (setp req name) with
        | ok raw =>
          simp only [ho]
          simp
        | error e =>
          simp only [ho, List.foldl_cons]
          exact try_fallback_finalReq_foldl getp setp provs rest (setp req name)

theorem try_fallback_result_last {ρ α : Type} (getp : ρ → String)
    (setp : ρ → String → ρ) (provs : List (String × (ρ → Except Unit α))) :
    ∀ (order : List String) (req : ρ) (nm : String) (raw : α),
    (try_fallback getp setp provs order req).result = .ok (nm, raw) →
      (try_fallback getp setp provs order req).attempts.getLast? = some nm
  | [], req, nm, raw => by simp [try_fallback]
  | name :: rest, req, nm, raw => by
    rw [try_fallback]
    by_cases h1 : name = getp req
    · rw [if_pos h1]
      exact try_fallback_result_last getp setp provs rest req nm raw
    · rw [if_neg h1]
      cases hpl : plookup provs name with
      | none =>
        simp only [hpl]
        exact try_fallback_result_last getp setp provs rest req nm raw
      | some oracle =>
        simp only [hpl]
        cases ho : oracle (setp req name) with
        | ok raw' =>
          simp only [ho]
          intro h
          simp at h ⊢
          exact h.1
        | error e =>
          simp only [ho]
          intro h
          have ih := try_fallback_result_last getp setp provs rest (setp req name) nm raw h
          have hne : (try_fallback getp setp provs rest (setp req name)).attempts ≠ [] := by
            intro h0
            rw [h0] at ih
            simp at ih
          match h2 : (try_fallback getp setp provs rest (setp req name)).attempts, hne with
          | b :: bs, _ =>
            rw [h2] at ih
            show (name :: b :: bs).getLast? = some nm
            rw [List.getLast?_cons_cons]
            exact ih

theorem try_fallback_head_ne {ρ α : Type} (getp : ρ → String)
    (setp : ρ → String → ρ) (provs : List (String × (ρ → Except Unit α))) :
    ∀ (order : List String) (req : ρ),
    (try_fallback getp setp provs order req).attempts.head? ≠ some (getp req)
  | [], req => by simp [try_fallback]
  | name :: rest, req => by
    rw [try_fallback]
    by_cases h1 : name = getp req
    · rw [if_pos h1]
      exact try_fallback_head_ne getp setp provs rest req
    · rw [if_neg h1]
      cases hpl : plookup provs name with
      | none =>
        simp only [hpl]
        exact try_fallback_head_ne getp setp provs rest req
      | some oracle =>
        simp only [hpl]
        cases ho : oracle (setp req name) with
        | ok raw =>
          simp only [ho]
          simpa using h1
        | error e =>
          simp only [ho]
          simpa using h1

theorem try_fallback_runs {ρ α : Type} (getp : ρ → String)
    (setp : ρ → String → ρ)
    (hcol : ∀ (r : ρ) (a b : String), setp (setp r a) b = setp r b)
    (provs : List (String × (ρ → Except Unit α))) :
    ∀ (order : List String) (req : ρ),
    (∀ nm raw, (try_fallback getp setp provs order req).result = .ok (nm, raw) →
        ∃ o, plookup provs nm = some o ∧ o (setp req nm) = .ok raw ∧
          (try_fallback getp setp provs order req).finalReq = setp req nm) ∧
      ((try_fallback getp setp provs order req).result = .error () →
        ∀ a ∈ (try_fallback getp setp provs order req).attempts,
          ∃ o, plookup provs a = some o ∧ o (setp req a) = .error ())
  | [], req => by simp [try_fallback]
  | name :: rest, req => by
    rw [try_fallback]
    by_cases h1 : name = getp req
    · rw [if_pos h1]
      exact try_fallback_runs getp setp hcol provs rest req
    · rw [if_neg h1]
      cases hpl : plookup provs name with
      | none =>
        simp only [hpl]
        exact try_fallback_runs getp setp hcol provs rest req
      | some oracle =>
        simp only [hpl]
        cases ho : oracle (setp req name) with
        | ok raw' =>
          simp only [ho]
          constructor
          · intro nm raw h
            simp at h
            obtain ⟨h2, h3⟩ := h
            subst h2
            subst h3
            exact ⟨oracle, hpl, ho, rfl⟩
          · intro h
            simp at h
        | error e =>
          simp only [ho]
          obtain ⟨ih1, ih2⟩ := try_fallback_runs getp setp hcol provs rest (setp req name)
          constructor
          · intro nm raw h
            obtain ⟨o, hplo, hrun, hfin⟩ := ih1 nm raw h
            rw [hcol] at hrun hfin
            exact ⟨o, hplo, hrun, hfin⟩
          · intro h a ha
            rcases List.mem_cons.mp ha with rfl | ha
            · exact ⟨oracle, hpl, ho⟩
            · obtain ⟨o, hplo, hrun⟩ := ih2 h a ha
              rw [hcol] at hrun
              exact ⟨o, hplo, hrun⟩

theorem try_fallback_all_fail {ρ α : Type} (getp : ρ → String)
    (setp : ρ → String → ρ) (provs : List (String × (ρ → Except Unit α)))
    (hfail : ∀ p ∈ provs, ∀ r, p.2 r = .error ()) :
    ∀ (order : List String) (req : ρ),
    (try_fallback getp setp provs order req).result = .error ()
  | [], req => by simp [try_fallback]
  | name :: rest, req => by
    rw [try_fallback]
    by_cases h1 : name = getp req
    · rw [if_pos h1]
      exact try_fallback_all_fail getp setp provs hfail rest req
    · rw [if_neg h1]
      cases hpl : plookup provs name with
      | none =>
        simp only [hpl]
        exact try_fallback_all_fail getp setp provs hfail rest req
      | some oracle =>
        simp only [hpl]
        have ho := hfail (name, oracle) (plookup_mem provs hpl) (setp req name)
        simp only at ho
        rw [ho]
        exact try_fallback_all_fail getp setp provs hfail rest (setp req name)
theorem foldl_collapse {ρ : Type} (setp : ρ → String → ρ)
    (hcol : ∀ (r : ρ) (a b : String), setp (setp r a) b = setp r b) :
    ∀ (l : List String) (r : ρ) (d : String),
    l ≠ [] → l.foldl setp r = setp r (l.getLastD d)
  | [a], r, d, _ => by simp
  | a :: b :: t, r, d, _ => by
    rw [List.foldl_cons, foldl_collapse setp hcol (b :: t) (setp r a) a (by simp), hcol]
    rfl

theorem stt_transcribe_all_fail
    (provs : List (String × (TranscriptionRequest → Except Unit SttRaw)))
    (req : TranscriptionRequest)
    (hreg : (plookup provs req.provider).isSome)
    (hfail : ∀ p ∈ provs, ∀ r, p.2 r = .error ()) :
    (stt_transcribe provs req).1 = .error (.allFailed "All STT providers failed") := by
  obtain ⟨o, ho⟩ := Option.isSome_iff_exists.mp hreg
  have hfo := hfail (req.provider, o) (plookup_mem provs ho) req
  simp only at hfo
  have hres : (stt_try_fallback provs req).result = .error () :=
    try_fallback_all_fail _ _ provs hfail stt_fallback_order req
  unfold stt_transcribe
  rw [ho]
  simp only [hfo, stt_try_fallback] at *
  rw [hres]

theorem translation_translate_all_fail
    (provs : List (String × (TranslationRequest → Except Unit TranslationRaw)))
    (req : TranslationRequest)
    (hreg : (plookup provs req.provider).isSome)
    (hfail : ∀ p ∈ provs, ∀ r, p.2 r = .error ()) :
    (translation_translate provs req).1 =
      .error (.allFailed "All translation providers failed") := by
  obtain ⟨o, ho⟩ := Option.isSome_iff_exists.mp hreg
  have hfo := hfail (req.provider, o) (plookup_mem provs ho) req
  simp only at hfo
  have hres : (translation_try_fallback provs req).result = .error () :=
    try_fallback_all_fail _ _ provs hfail translation_fallback_order req
  unfold translation_translate
  rw [ho]
  simp only [hfo, translation_try_fallback] at *
  rw [hres]

theorem ai_generate_answer_all_fail
    (provs : List (String × (AnswerGenerationRequest → Except Unit AnswerRaw)))
    (req : AnswerGenerationRequest)
    (hreg : (plookup provs req.provider).isSome)
    (hfail : ∀ p ∈ provs, ∀ r, p.2 r = .error ()) :
    (ai_generate_answer provs req).1 = .error (.allFailed "All AI providers failed") := by
  obtain ⟨o, ho⟩ := Option.isSome_iff_exists.mp hreg
  have hfo := hfail (req.provider, o) (plookup_mem provs ho) req
  simp only at hfo
  have hres : (ai_try_fallback provs req).result = .error () :=
    try_fallback_all_fail _ _ provs hfail ai_fallback_order req
  unfold ai_generate_answer
  rw [ho]
  simp only [hfo, ai_try_fallback] at *
  rw [hres]

theorem foldl_setp_question : ∀ (l : List String) (r : AnswerGenerationRequest),
    (l.foldl (fun r n => { r with provider := n }) r).question = r.question
  | [], _ => rfl
  | a :: t, r => by
    rw [List.foldl_cons]
    exact foldl_setp_question t _

theorem ai_generate_answer_question
    (provs : List (String × (AnswerGenerationRequest → Except Unit AnswerRaw)))
    (req : AnswerGenerationRequest) :
    ∀ resp, (ai_generate_answer provs req).1 = .ok resp → resp.question = req.question := by
  intro resp h
  unfold ai_generate_answer at h
  cases hpl : plookup provs req.provider with
  | none =>
    simp only [hpl] at h
    simp at h
  | some oracle =>
    simp only [hpl] at h
    cases ho : oracle req with
    | ok raw =>
      simp only [ho] at h
      simp at h
      rw [← h]
    | error e =>
      simp only [ho] at h
      cases hfb : (ai_try_fallback provs req).result with
      | ok pr =>
        obtain ⟨nm, raw⟩ := pr
        simp only [hfb] at h
        simp at h
        rw [← h]
        show (ai_try_fallback provs req).finalReq.question = req.question
        rw [ai_try_fallback, try_fallback_finalReq_foldl]
        exact foldl_setp_question _ _
      | error e2 =>
        simp only [hfb] at h
        simp at h

/-! ## Claim theorems -/

/-- Claim C1, counterexample.  The claim quantifies over all configured
`max_length` values; at `max_length = 0` the output of
`_post_process_answer` on `"hi"` is `"."`, which has one word, exceeding the
limit of 0 — the word bound fails for non-positive limits. -/
theorem c1_counterexample :
    ¬ (((splitWs (post_process_answer 0 ("hi".data))).length : Int) ≤ 0) := by
  decide

/-- Claim C1 (amended).  For every `max_length` `N ≥ 1` and every input
string, `_post_process_answer` returns a string with at most `N` words
(counted by Python `str.split`, as the source does) whose final character is
`'.'`, `'!'` or `'?'`. -/
theorem c1_post_process_bounds (N : Int) (hN : 1 ≤ N) (answer : List Char) :
    ((splitWs (post_process_answer N answer)).length : Int) ≤ N ∧
      endsTerm (post_process_answer N answer) = true := by
  obtain ⟨-, h2, h3⟩ := post_process_invariants N hN answer
  exact ⟨h3, h2⟩

/-- Witness for `c1_post_process_bounds` at `N = 5` on an 8-word input. -/
theorem c1_witness :
    (1 : Int) ≤ 5 ∧
      (((splitWs (post_process_answer 5
          ("hello world this is a test of truncation".data))).length : Int) ≤ 5 ∧
        endsTerm (post_process_answer 5
          ("hello world this is a test of truncation".data)) = true) :=
  ⟨by decide,
    c1_post_process_bounds 5 (by decide) ("hello world this is a test of truncation".data)⟩

/-- Claim C9, counterexample.  With the same (configurable) `max_length = -1`,
applying `_post_process_answer` twice is not the same as applying it once:
Python's negative slice `words[:-1]` drops one trailing word per
application. -/
theorem c9_counterexample :
    post_process_answer (-1) (post_process_answer (-1) ("a b c.".data)) ≠
      post_process_answer (-1) ("a b c.".data) := by
  decide

/-- Claim C9 (amended).  Fixed points: a whitespace-normalized answer that
already ends in a terminator and has at most `max_length` words is returned
unchanged; and for every `max_length ≥ 0` (but not for negative values)
applying `_post_process_answer` twice equals applying it once. -/
theorem c9_idempotence (N : Int) (hN : 0 ≤ N) (s : List Char) :
    ((joinWords (splitWs s) = s ∧ endsTerm s = true ∧
        ((splitWs s).length : Int) ≤ N) →
      post_process_answer N s = s) ∧
    post_process_answer N (post_process_answer N s) = post_process_answer N s :=
  ⟨fun ⟨h1, h2, h3⟩ => post_process_fixed h1 h2 h3, post_process_idem hN s⟩

/-- Witness for `c9_idempotence` at `N = 150` on `"Sounds good."`. -/
theorem c9_witness :
    (0 : Int) ≤ 150 ∧
      post_process_answer 150 ("Sounds good.".data) = "Sounds good.".data ∧
      post_process_answer 150 (post_process_answer 150 ("Sounds good.".data)) =
        post_process_answer 150 ("Sounds good.".data) :=
  ⟨by decide,
    (c9_idempotence 150 (by decide) ("Sounds good.".data)).1
      ⟨by decide, by decide, by decide⟩,
    (c9_idempotence 150 (by decide) ("Sounds good.".data)).2⟩

/-- Claim C3 (confirmed).  When transcription succeeds with empty or
whitespace-only text, the pipeline run emits exactly the one `transcription`
event carrying that text and stops: no `translation`/`answer`/`error` event,
and neither the translation nor the answer-generation service is invoked. -/
theorem c3_empty_short_circuit (st : Settings)
    (sttProvs : List (String × (TranscriptionRequest → Except Unit SttRaw)))
    (trProvs : List (String × (TranslationRequest → Except Unit TranslationRaw)))
    (aiProvs : List (String × (AnswerGenerationRequest → Except Unit AnswerRaw)))
    (session : Session) (ad : List Char) (tr : TranscriptionResponse)
    (rq : TranscriptionRequest)
    (had : ad ≠ [])
    (htr : stt_transcribe sttProvs (pipelineTranscriptionRequest st session ad) = (.ok tr, rq))
    (hempty : pyStrip tr.text = []) :
    process_audio_chunk st sttProvs trProvs aiProvs session (some ad) =
      ⟨[Event.transcription tr.text tr.confidence tr.language], false, false⟩ := by
  simp only [process_audio_chunk]
  rw [if_neg had, htr]
  simp only [hempty, if_pos]

/-- Witness for `c3_empty_short_circuit`: a provider returning empty text. -/
theorem c3_witness :
    process_audio_chunk ⟨"auto", "en", "mock", "google", "professional", 150⟩
        [("mock", fun _ => Except.ok ⟨[], some (19/20), some "en"⟩)] [] []
        ⟨"en", "zh"⟩ (some ("x".data)) =
      ⟨[Event.transcription [] (19/20) "en"], false, false⟩ :=
  c3_empty_short_circuit ⟨"auto", "en", "mock", "google", "professional", 150⟩
    [("mock", fun _ => Except.ok ⟨[], some (19/20), some "en"⟩)] [] []
    ⟨"en", "zh"⟩ ("x".data) ⟨[], 19/20, "en", "mock"⟩
    (pipelineTranscriptionRequest ⟨"auto", "en", "mock", "google", "professional", 150⟩
      ⟨"en", "zh"⟩ ("x".data))
    (by decide) (by rfl) (by decide)

/-- Claim C2, counterexample.  The pipeline decides translation by exact
string comparison of the *session's configured* languages, not by the
base-subtag comparison of the *detected* language against the target
(`is_translation_needed` is never called by `process_audio_chunk`).  With
session `source="en-US"`, `target="en"` and detected language `"en"`,
the base subtags agree (`is_translation_needed "en" "en" = false`), yet the
translation service *is* invoked. -/
theorem c2_counterexample :
    is_translation_needed "en" "en" = false ∧
      (process_audio_chunk ⟨"auto", "en", "mock", "google", "professional", 150⟩
          [("mock", fun _ => Except.ok ⟨"hello".data, some (19/20), some "en"⟩)]
          [("google", fun _ => Except.ok ⟨"hola".data, some "en", some (19/20)⟩)]
          [("openai", fun _ => Except.ok ⟨"Answer.".data, some (9/10)⟩)]
          ⟨"en-US", "en"⟩ (some ("x".data))).translateCalled = true := by
  exact ⟨by decide, by rfl⟩

/-- Claim C2 (amended).  After a successful non-empty transcription, the
pipeline invokes translation iff the session's configured source and target
languages differ as exact strings; when they are equal no translation event
is emitted and the transcribed text is used directly as the question of any
answer event. -/
theorem c2_translation_skip_condition (st : Settings)
    (sttProvs : List (String × (TranscriptionRequest → Except Unit SttRaw)))
    (trProvs : List (String × (TranslationRequest → Except Unit TranslationRaw)))
    (aiProvs : List (String × (AnswerGenerationRequest → Except Unit AnswerRaw)))
    (session : Session) (ad : List Char) (tr : TranscriptionResponse)
    (rq : TranscriptionRequest)
    (had : ad ≠ [])
    (htr : stt_transcribe sttProvs (pipelineTranscriptionRequest st session ad) = (.ok tr, rq))
    (hne : pyStrip tr.text ≠ []) :
    (session.source_language = session.target_language →
      (process_audio_chunk st sttProvs trProvs aiProvs session (some ad)).translateCalled
          = false ∧
        (∀ e ∈ (process_audio_chunk st sttProvs trProvs aiProvs session (some ad)).events,
          e.isTranslation = false) ∧
        (∀ q a c sty, Event.answer q a c sty ∈
            (process_audio_chunk st sttProvs trProvs aiProvs session (some ad)).events →
          q = tr.text)) ∧
      (session.source_language ≠ session.target_language →
        (process_audio_chunk st sttProvs trProvs aiProvs session (some ad)).translateCalled
          = true) := by
  constructor
  · intro heq
    rcases hai : ai_generate_answer aiProvs (pipelineAnswerRequest st session tr.text)
      with ⟨res, rq2⟩
    have hq : ∀ resp, res = .ok resp → resp.question = tr.text := by
      intro resp hr
      have := ai_generate_answer_question aiProvs
        (pipelineAnswerRequest st session tr.text) resp (by rw [hai, hr])
      simpa [pipelineAnswerRequest] using this
    cases res with
    | error e =>
      simp only [process_audio_chunk, if_neg had, htr, if_neg hne, heq, ne_eq,
        not_true_eq_false, if_false, ite_false, hai]
      refine ⟨by trivial, ?_, ?_⟩
      · intro e' he'
        simp only [List.mem_cons, List.not_mem_nil, or_false] at he'
        rcases he' with rfl | rfl
        · rfl
        · rfl
      · intro q a c sty hmem
        simp only [List.mem_cons, List.not_mem_nil, or_false] at hmem
        rcases hmem with hm | hm
        · exact absurd hm (by simp)
        · exact absurd hm (by simp)
    | ok ans =>
      simp only [process_audio_chunk, if_neg had, htr, if_neg hne, heq, ne_eq,
        not_true_eq_false, if_false, ite_false, hai]
      refine ⟨by trivial, ?_, ?_⟩
      · intro e' he'
        simp only [List.mem_cons, List.not_mem_nil, or_false] at he'
        rcases he' with rfl | rfl
        · rfl
        · rfl
      · intro q a c sty hmem
        simp only [List.mem_cons, List.not_mem_nil, or_false] at hmem
        rcases hmem with hm | hm
        · exact absurd hm (by simp)
        · simp only [Event.answer.injEq] at hm
          rw [hm.1]
          exact hq ans rfl
  · intro hneq
    rcases htl : translation_translate trProvs (pipelineTranslationRequest st session tr)
      with ⟨resT, rqT⟩
    cases resT with
    | error e =>
      simp only [process_audio_chunk, if_neg had, htr, if_neg hne, if_pos hneq, htl]
    | ok tl =>
      rcases hai : ai_generate_answer aiProvs (pipelineAnswerRequest st session tl.translated_text)
        with ⟨res, rq2⟩
      cases res with
      | error e =>
        simp only [process_audio_chunk, if_neg had, htr, if_neg hne, if_pos hneq, htl, hai]
      | ok ans =>
        simp only [process_audio_chunk, if_neg had, htr, if_neg hne, if_pos hneq, htl, hai]

/-- Witness for `c2_translation_skip_condition`: equal session languages
skip translation; the answer question is the transcript. -/
theorem c2_witness :
    (process_audio_chunk ⟨"auto", "en", "mock", "google", "professional", 150⟩
        [("mock", fun _ => Except.ok ⟨"hello".data, some (19/20), some "en"⟩)]
        [("google", fun _ => Except.ok ⟨"hola".data, some "en", some (19/20)⟩)]
        [("openai", fun _ => Except.ok ⟨"Answer.".data, some (9/10)⟩)]
        ⟨"en", "en"⟩ (some ("x".data))).translateCalled = false :=
  ((c2_translation_skip_condition ⟨"auto", "en", "mock", "google", "professional", 150⟩
      [("mock", fun _ => Except.ok ⟨"hello".data, some (19/20), some "en"⟩)]
      [("google", fun _ => Except.ok ⟨"hola".data, some "en", some (19/20)⟩)]
      [("openai", fun _ => Except.ok ⟨"Answer.".data, some (9/10)⟩)]
      ⟨"en", "en"⟩ ("x".data) ⟨"hello".data, 19/20, "en", "mock"⟩
      (pipelineTranscriptionRequest ⟨"auto", "en", "mock", "google", "professional", 150⟩
        ⟨"en", "en"⟩ ("x".data))
      (by decide) (by rfl) (by decide)).1 rfl).1

/-- Claim C5, counterexample.  The fallback path reports the adapter's own
confidence without any cap: with the `local` primary failing and a `google`
fallback whose vendor reports 0.95, the emitted confidence is 0.95 > 0.9,
refuting `confidence ≤ 0.9`.  (`GoogleSTTProvider.transcribe` passes
`alternative.confidence` through verbatim; the 0.8 fallback default applies
only when the adapter supplies no confidence, which the shipped adapters
always do.) -/
theorem c5_counterexample :
    (stt_transcribe
        [("local", fun _ => Except.error ()),
         ("google", fun _ => Except.ok ⟨"hi".data, some (19/20), some "en"⟩)]
        ⟨"x".data, "en", "local"⟩).1 =
      .ok ⟨"hi".data, 19/20, "en", "google"⟩ ∧
      ¬ ((19 : Rat)/20 ≤ 9/10) := by
  exact ⟨by rfl, by norm_num⟩

/-- Claim C5 (amended).  When the primary STT provider fails and the fallback
loop succeeds with provider `nm`, the service response is labelled
`provider = nm` (a registered provider from the declared fallback order) and
its confidence is the fallback adapter's reported confidence, defaulting to
0.8 when the adapter reports none; the confidence is ≤ 0.9 (the primary-path
default) provided the succeeding adapter reports at most 0.9 or reports
none — it is not clamped by the service. -/
theorem c5_fallback_provider_confidence
    (provs : List (String × (TranscriptionRequest → Except Unit SttRaw)))
    (req : TranscriptionRequest) (o : TranscriptionRequest → Except Unit SttRaw)
    (nm : String) (raw : SttRaw)
    (hpl : plookup provs req.provider = some o)
    (hfailp : o req = .error ())
    (hfb : (stt_try_fallback provs req).result = .ok (nm, raw)) :
    (stt_transcribe provs req).1 =
      .ok { text := raw.text, confidence := raw.confidence.getD (8/10),
            language := raw.language.getD req.language, provider := nm } ∧
      nm ∈ stt_fallback_order ∧
      (plookup provs nm).isSome ∧
      ((∀ q, raw.confidence = some q → q ≤ 9/10) →
        raw.confidence.getD (8/10) ≤ 9/10) := by
  have hlast : (stt_try_fallback provs req).attempts.getLast? = some nm :=
    try_fallback_result_last _ _ provs stt_fallback_order req nm raw hfb
  have hmem : nm ∈ (stt_try_fallback provs req).attempts :=
    List.mem_of_mem_getLast? hlast
  refine ⟨?_, ?_, ?_, ?_⟩
  · unfold stt_transcribe
    simp only [hpl, hfailp, hfb]
  · exact (try_fallback_attempts_sublist _ _ provs stt_fallback_order req).subset hmem
  · exact try_fallback_attempts_registered _ _ provs stt_fallback_order req nm hmem
  · intro hb
    cases hc : raw.confidence with
    | none =>
      simp only [Option.getD_none]
      norm_num
    | some q =>
      simp only [Option.getD_some]
      exact hb q hc

/-- Witness for `c5_fallback_provider_confidence` on the concrete failing
`local` primary with a `google` fallback reporting 0.85. -/
theorem c5_witness :
    (stt_transcribe
        [("local", fun _ => Except.error ()),
         ("google", fun _ => Except.ok ⟨"hi".data, some (17/20), some "en"⟩)]
        ⟨"x".data, "en", "local"⟩).1 =
      .ok { text := "hi".data, confidence := (some ((17 : Rat)/20)).getD (8/10),
            language := (some "en").getD "en", provider := "google" } ∧
      "google" ∈ stt_fallback_order ∧
      ((∀ q, (some ((17 : Rat)/20) : Option Rat) = some q → q ≤ 9/10) →
        (some ((17 : Rat)/20)).getD (8/10) ≤ 9/10) :=
  ⟨(c5_fallback_provider_confidence
      [("local", fun _ => Except.error ()),
       ("google", fun _ => Except.ok ⟨"hi".data, some (17/20), some "en"⟩)]
      ⟨"x".data, "en", "local"⟩ (fun _ => Except.error ()) "google"
      ⟨"hi".data, some (17/20), some "en"⟩ (by rfl) (by rfl) (by rfl)).1,
    (c5_fallback_provider_confidence
      [("local", fun _ => Except.error ()),
       ("google", fun _ => Except.ok ⟨"hi".data, some (17/20), some "en"⟩)]
      ⟨"x".data, "en", "local"⟩ (fun _ => Except.error ()) "google"
      ⟨"hi".data, some (17/20), some "en"⟩ (by rfl) (by rfl) (by rfl)).2.1,
    (c5_fallback_provider_confidence
      [("local", fun _ => Except.error ()),
       ("google", fun _ => Except.ok ⟨"hi".data, some (17/20), some "en"⟩)]
      ⟨"x".data, "en", "local"⟩ (fun _ => Except.error ()) "google"
      ⟨"hi".data, some (17/20), some "en"⟩ (by rfl) (by rfl) (by rfl)).2.2.2⟩

/-- Claim C6, counterexample.  With zero real STT adapters the registry is
exactly the mock, but the mock is *not* selected automatically: a request
naming the default primary `"openai"` raises
`ValueError("Provider openai not available")` instead of succeeding through
the mock. -/
theorem c6_counterexample :
    (stt_transcribe (stt_initialize_providers none none none)
        ⟨"x".data, "en", "openai"⟩).1 =
      .error (.providerNotAvailable "openai") := by
  rfl

/-- Claim C6 (amended).  For each capability with zero real adapters the
registry contains exactly the mock adapter; an invocation succeeds through
the mock, labelled `provider = "mock"`, iff the caller requests
`provider = "mock"`; any other requested primary name fails with
`Provider <name> not available` (the mock appears in no fallback order). -/
theorem c6_mock_registry :
    stt_initialize_providers none none none = [("mock", mock_stt_transcribe)] ∧
      translation_initialize_providers none none none =
        [("mock", mock_translation_translate)] ∧
      ai_initialize_providers none none = [("mock", mock_ai_generate)] ∧
      (∀ req : TranscriptionRequest, req.provider = "mock" →
        ∃ resp, (stt_transcribe (stt_initialize_providers none none none) req).1 =
            .ok resp ∧ resp.provider = "mock") ∧
      (∀ req : TranscriptionRequest, req.provider ≠ "mock" →
        (stt_transcribe (stt_initialize_providers none none none) req).1 =
          .error (.providerNotAvailable req.provider)) ∧
      (∀ req : TranslationRequest, req.provider = "mock" →
        ∃ resp, (translation_translate (translation_initialize_providers none none none) req).1
            = .ok resp ∧ resp.provider = "mock") ∧
      (∀ req : TranslationRequest, req.provider ≠ "mock" →
        (translation_translate (translation_initialize_providers none none none) req).1 =
          .error (.providerNotAvailable req.provider)) ∧
      (∀ req : AnswerGenerationRequest, req.provider = "mock" →
        ∃ resp, (ai_generate_answer (ai_initialize_providers none none) req).1 =
            .ok resp ∧ resp.provider = "mock") ∧
      (∀ req : AnswerGenerationRequest, req.provider ≠ "mock" →
        (ai_generate_answer (ai_initialize_providers none none) req).1 =
          .error (.providerNotAvailable req.provider)) := by
  refine ⟨rfl, rfl, rfl, ?_, ?_, ?_, ?_, ?_, ?_⟩
  · intro req hm
    unfold stt_transcribe
    have hl : plookup (stt_initialize_providers none none none) req.provider =
        some mock_stt_transcribe := by
      show plookup [("mock", mock_stt_transcribe)] req.provider = some mock_stt_transcribe
      rw [plookup, if_pos hm.symm]
    simp only [hl, mock_stt_transcribe]
    exact ⟨_, rfl, hm⟩
  · intro req hm
    unfold stt_transcribe
    have hl : plookup (stt_initialize_providers none none none) req.provider = none := by
      show plookup [("mock", mock_stt_transcribe)] req.provider = none
      rw [plookup, if_neg (Ne.symm hm), plookup]
    simp only [hl]
  · intro req hm
    unfold translation_translate
    have hl : plookup (translation_initialize_providers none none none) req.provider =
        some mock_translation_translate := by
      show plookup [("mock", mock_translation_translate)] req.provider =
        some mock_translation_translate
      rw [plookup, if_pos hm.symm]
    simp only [hl, mock_translation_translate]
    exact ⟨_, rfl, hm⟩
  · intro req hm
    unfold translation_translate
    have hl : plookup (translation_initialize_providers none none none) req.provider =
        none := by
      show plookup [("mock", mock_translation_translate)] req.provider = none
      rw [plookup, if_neg (Ne.symm hm), plookup]
    simp only [hl]
  · intro req hm
    unfold ai_generate_answer
    have hl : plookup (ai_initialize_providers none none) req.provider =
        some mock_ai_generate := by
      show plookup [("mock", mock_ai_generate)] req.provider = some mock_ai_generate
      rw [plookup, if_pos hm.symm]
    simp only [hl, mock_ai_generate]
    exact ⟨_, rfl, hm⟩
  · intro req hm
    unfold ai_generate_answer
    have hl : plookup (ai_initialize_providers none none) req.provider = none := by
      show plookup [("mock", mock_ai_generate)] req.provider = none
      rw [plookup, if_neg (Ne.symm hm), plookup]
    simp only [hl]

/-- Witness for `c6_mock_registry`: requesting `provider = "mock"` succeeds
through the mock; requesting `"google"` does not. -/
theorem c6_witness :
    (∃ resp, (stt_transcribe (stt_initialize_providers none none none)
        ⟨"x".data, "en", "mock"⟩).1 = .ok resp ∧ resp.provider = "mock") ∧
      (stt_transcribe (stt_initialize_providers none none none)
        ⟨"x".data, "en", "google"⟩).1 = .error (.providerNotAvailable "google") :=
  ⟨c6_mock_registry.2.2.2.1 ⟨"x".data, "en", "mock"⟩ (by rfl),
    c6_mock_registry.2.2.2.2.1 ⟨"x".data, "en", "google"⟩ (by decide)⟩

/-- Claim C4, counterexample.  The skip test compares each candidate against
the *current* `request.provider`, which every attempt overwrites; after the
`local` fallback is attempted and fails, the failed primary `openai` no
longer matches `request.provider` and is retried — `"openai"` appears in the
attempt list even though it is the failed primary's name. -/
theorem c4_counterexample :
    ({ audio_data := "x".data, language := "en", provider := "openai" } :
        TranscriptionRequest).provider = "openai" ∧
      (stt_try_fallback
          [("local", fun _ => Except.error ()),
           ("openai", fun _ => Except.ok ⟨"hi".data, some (9/10), some "en"⟩)]
          ⟨"x".data, "en", "openai"⟩).attempts = ["local", "openai"] := by
  exact ⟨rfl, by rfl⟩

/-- Claim C4 (amended).  The fallback orders are the fixed declared lists
(STT: local, openai, google; translation: google_free, google, deepl;
answer generation: openai, anthropic).  Each service's `_try_fallback`
attempts providers in that declared order (the attempt list is a sublist of
the order), attempts only registered providers, never attempts the primary
*first* (an entry equal to the most recently attempted provider — initially
the primary — is skipped, but a primary reappearing after another failed
attempt is retried, since each attempt overwrites `request.provider`), and
returns the result of the first success, which is the last attempted
provider called on the request with its provider field set to that name. -/
theorem c4_fallback_order :
    stt_fallback_order = ["local", "openai", "google"] ∧
      translation_fallback_order = ["google_free", "google", "deepl"] ∧
      ai_fallback_order = ["openai", "anthropic"] ∧
      (∀ provs (req : TranscriptionRequest),
        List.Sublist (stt_try_fallback provs req).attempts stt_fallback_order ∧
          (∀ a ∈ (stt_try_fallback provs req).attempts, (plookup provs a).isSome) ∧
          (stt_try_fallback provs req).attempts.head? ≠ some req.provider ∧
          (∀ nm raw, (stt_try_fallback provs req).result = .ok (nm, raw) →
            (stt_try_fallback provs req).attempts.getLast? = some nm ∧
              ∃ o, plookup provs nm = some o ∧
                o { req with provider := nm } = .ok raw)) ∧
      (∀ provs (req : TranslationRequest),
        List.Sublist (translation_try_fallback provs req).attempts
            translation_fallback_order ∧
          (∀ a ∈ (translation_try_fallback provs req).attempts, (plookup provs a).isSome) ∧
          (translation_try_fallback provs req).attempts.head? ≠ some req.provider ∧
          (∀ nm raw, (translation_try_fallback provs req).result = .ok (nm, raw) →
            (translation_try_fallback provs req).attempts.getLast? = some nm ∧
              ∃ o, plookup provs nm = some o ∧
                o { req with provider := nm } = .ok raw)) ∧
      (∀ provs (req : AnswerGenerationRequest),
        List.Sublist (ai_try_fallback provs req).attempts ai_fallback_order ∧
          (∀ a ∈ (ai_try_fallback provs req).attempts, (plookup provs a).isSome) ∧
          (ai_try_fallback provs req).attempts.head? ≠ some req.provider ∧
          (∀ nm raw, (ai_try_fallback provs req).result = .ok (nm, raw) →
            (ai_try_fallback provs req).attempts.getLast? = some nm ∧
              ∃ o, plookup provs nm = some o ∧
                o { req with provider := nm } = .ok raw)) := by
  refine ⟨rfl, rfl, rfl, ?_, ?_, ?_⟩
  · intro provs req
    refine ⟨try_fallback_attempts_sublist _ _ provs stt_fallback_order req,
      try_fallback_attempts_registered _ _ provs stt_fallback_order req,
      try_fallback_head_ne _ _ provs stt_fallback_order req, ?_⟩
    intro nm raw h
    obtain ⟨o, hpl, hrun, -⟩ :=
      (try_fallback_runs (fun r : TranscriptionRequest => r.provider)
        (fun r n => { r with provider := n }) (fun _ _ _ => rfl) provs
        stt_fallback_order req).1 nm raw h
    exact ⟨try_fallback_result_last _ _ provs stt_fallback_order req nm raw h,
      o, hpl, hrun⟩
  · intro provs req
    refine ⟨try_fallback_attempts_sublist _ _ provs translation_fallback_order req,
      try_fallback_attempts_registered _ _ provs translation_fallback_order req,
      try_fallback_head_ne _ _ provs translation_fallback_order req, ?_⟩
    intro nm raw h
    obtain ⟨o, hpl, hrun, -⟩ :=
      (try_fallback_runs (fun r : TranslationRequest => r.provider)
        (fun r n => { r with provider := n }) (fun _ _ _ => rfl) provs
        translation_fallback_order req).1 nm raw h
    exact ⟨try_fallback_result_last _ _ provs translation_fallback_order req nm raw h,
      o, hpl, hrun⟩
  · intro provs req
    refine ⟨try_fallback_attempts_sublist _ _ provs ai_fallback_order req,
      try_fallback_attempts_registered _ _ provs ai_fallback_order req,
      try_fallback_head_ne _ _ provs ai_fallback_order req, ?_⟩
    intro nm raw h
    obtain ⟨o, hpl, hrun, -⟩ :=
      (try_fallback_runs (fun r : AnswerGenerationRequest => r.provider)
        (fun r n => { r with provider := n }) (fun _ _ _ => rfl) provs
        ai_fallback_order req).1 nm raw h
    exact ⟨try_fallback_result_last _ _ provs ai_fallback_order req nm raw h,
      o, hpl, hrun⟩

/-- Witness for `c4_fallback_order`: primary `local` fails over to the only
registered fallback `google`, tried per the declared order. -/
theorem c4_witness :
    (stt_try_fallback
        [("google", (fun _ => Except.ok ⟨"hi".data, none, none⟩ :
          TranscriptionRequest → Except Unit SttRaw))]
        ⟨"x".data, "en", "local"⟩).attempts.getLast? = some "google" ∧
      ∃ o, plookup
          [("google", (fun _ => Except.ok ⟨"hi".data, none, none⟩ :
            TranscriptionRequest → Except Unit SttRaw))] "google" = some o ∧
        o { (⟨"x".data, "en", "local"⟩ : TranscriptionRequest) with provider := "google" } =
          .ok ⟨"hi".data, none, none⟩ :=
  (c4_fallback_order.2.2.2.1
      [("google", fun _ => Except.ok ⟨"hi".data, none, none⟩)]
      ⟨"x".data, "en", "local"⟩).2.2.2 "google" ⟨"hi".data, none, none⟩ (by rfl)

/-- Claim C10 (confirmed).  The fallback loop returns the caller's request
with every attempt's overwrite folded in (`finalReq = foldl setp req
attempts`); at the service entry points, a successful call leaves
`request.provider` equal to the response's provider (the succeeding
fallback's name, or unchanged on a primary success), and an
all-providers-failed exception leaves it naming the last attempted fallback
(the original value only when nothing was attempted) — there is no
restoration on error. -/
theorem c10_request_mutation :
    (∀ (ρ α : Type) (getp : ρ → String) (setp : ρ → String → ρ)
        (provs : List (String × (ρ → Except Unit α))) (order : List String) (req : ρ),
      (try_fallback getp setp provs order req).finalReq =
        (try_fallback getp setp provs order req).attempts.foldl setp req) ∧
      (∀ provs (req : TranscriptionRequest) res rq,
        stt_transcribe provs req = (res, rq) →
        (∀ resp, res = .ok resp → rq = { req with provider := resp.provider }) ∧
        (∀ m, res = .error (.allFailed m) →
          rq = { req with
                 provider := (stt_try_fallback provs req).attempts.getLastD req.provider })) ∧
      (∀ provs (req : TranslationRequest) res rq,
        translation_translate provs req = (res, rq) →
        (∀ resp, res = .ok resp → rq = { req with provider := resp.provider }) ∧
        (∀ m, res = .error (.allFailed m) →
          rq = { req with
                 provider :=
                   (translation_try_fallback provs req).attempts.getLastD req.provider })) ∧
      (∀ provs (req : AnswerGenerationRequest) res rq,
        ai_generate_answer provs req = (res, rq) →
        (∀ resp, res = .ok resp → rq = { req with provider := resp.provider }) ∧
        (∀ m, res = .error (.allFailed m) →
          rq = { req with
                 provider := (ai_try_fallback provs req).attempts.getLastD req.provider })) := by
  refine ⟨fun ρ α getp setp provs order req =>
    try_fallback_finalReq_foldl getp setp provs order req, ?_, ?_, ?_⟩
  · intro provs req res rq h
    unfold stt_transcribe at h
    cases hpl : plookup provs req.provider with
    | none =>
      simp only [hpl] at h
      injection h with h1 h2
      subst h1
      subst h2
      exact ⟨fun resp hres => by simp at hres, fun m hm => by simp at hm⟩
    | some oracle =>
      simp only [hpl] at h
      cases ho : oracle req with
      | ok raw =>
        simp only [ho] at h
        injection h with h1 h2
        subst h1
        subst h2
        refine ⟨?_, fun m hm => by simp at hm⟩
        intro resp hres
        injection hres with hx
        subst hx
        rfl
      | error e =>
        simp only [ho] at h
        cases hfb : (stt_try_fallback provs req).result with
        | ok pr =>
          obtain ⟨nm, raw⟩ := pr
          simp only [hfb] at h
          injection h with h1 h2
          subst h1
          subst h2
          refine ⟨?_, fun m hm => by simp at hm⟩
          intro resp hres
          obtain ⟨o, -, -, hfin⟩ :=
            (try_fallback_runs (fun r : TranscriptionRequest => r.provider)
              (fun r n => { r with provider := n }) (fun _ _ _ => rfl) provs
              stt_fallback_order req).1 nm raw hfb
          injection hres with hx
          subst hx
          exact hfin
        | error e2 =>
          simp only [hfb] at h
          injection h with h1 h2
          subst h1
          subst h2
          refine ⟨fun resp hres => by simp at hres, ?_⟩
          intro m hm
          show (stt_try_fallback provs req).finalReq = _
          rw [stt_try_fallback, try_fallback_finalReq_foldl]
          cases hat : (try_fallback (fun r : TranscriptionRequest => r.provider)
              (fun r n => { r with provider := n }) provs stt_fallback_order
              req).attempts with
          | nil => rfl
          | cons a t =>
            rw [foldl_collapse (fun (r : TranscriptionRequest) n => { r with provider := n })
              (fun _ _ _ => rfl) (a :: t) req req.provider (by simp)]
  · intro provs req res rq h
    unfold translation_translate at h
    cases hpl : plookup provs req.provider with
    | none =>
      simp only [hpl] at h
      injection h with h1 h2
      subst h1
      subst h2
      exact ⟨fun resp hres => by simp at hres, fun m hm => by simp at hm⟩
    | some oracle =>
      simp only [hpl] at h
      cases ho : oracle req with
      | ok raw =>
        simp only [ho] at h
        injection h with h1 h2
        subst h1
        subst h2
        refine ⟨?_, fun m hm => by simp at hm⟩
        intro resp hres
        injection hres with hx
        subst hx
        rfl
      | error e =>
        simp only [ho] at h
        cases hfb : (translation_try_fallback provs req).result with
        | ok pr =>
          obtain ⟨nm, raw⟩ := pr
          simp only [hfb] at h
          injection h with h1 h2
          subst h1
          subst h2
          refine ⟨?_, fun m hm => by simp at hm⟩
          intro resp hres
          obtain ⟨o, -, -, hfin⟩ :=
            (try_fallback_runs (fun r : TranslationRequest => r.provider)
              (fun r n => { r with provider := n }) (fun _ _ _ => rfl) provs
              translation_fallback_order req).1 nm raw hfb
          injection hres with hx
          subst hx
          exact hfin
        | error e2 =>
          simp only [hfb] at h
          injection h with h1 h2
          subst h1
          subst h2
          refine ⟨fun resp hres => by simp at hres, ?_⟩
          intro m hm
          show (translation_try_fallback provs req).finalReq = _
          rw [translation_try_fallback, try_fallback_finalReq_foldl]
          cases hat : (try_fallback (fun r : TranslationRequest => r.provider)
              (fun r n => { r with provider := n }) provs translation_fallback_order
              req).attempts with
          | nil => rfl
          | cons a t =>
            rw [foldl_collapse (fun (r : TranslationRequest) n => { r with provider := n })
              (fun _ _ _ => rfl) (a :: t) req req.provider (by simp)]
  · intro provs req res rq h
    unfold ai_generate_answer at h
    cases hpl : plookup provs req.provider with
    | none =>
      simp only [hpl] at h
      injection h with h1 h2
      subst h1
      subst h2
      exact ⟨fun resp hres => by simp at hres, fun m hm => by simp at hm⟩
    | some oracle =>
      simp only [hpl] at h
      cases ho : oracle req with
      | ok raw =>
        simp only [ho] at h
        injection h with h1 h2
        subst h1
        subst h2
        refine ⟨?_, fun m hm => by simp at hm⟩
        intro resp hres
        injection hres with hx
        subst hx
        rfl
      | error e =>
        simp only [ho] at h
        cases hfb : (ai_try_fallback provs req).result with
        | ok pr =>
          obtain ⟨nm, raw⟩ := pr
          simp only [hfb] at h
          injection h with h1 h2
          subst h1
          subst h2
          refine ⟨?_, fun m hm => by simp at hm⟩
          intro resp hres
          obtain ⟨o, -, -, hfin⟩ :=
            (try_fallback_runs (fun r : AnswerGenerationRequest => r.provider)
              (fun r n => { r with provider := n }) (fun _ _ _ => rfl) provs
              ai_fallback_order req).1 nm raw hfb
          injection hres with hx
          subst hx
          exact hfin
        | error e2 =>
          simp only [hfb] at h
          injection h with h1 h2
          subst h1
          subst h2
          refine ⟨fun resp hres => by simp at hres, ?_⟩
          intro m hm
          show (ai_try_fallback provs req).finalReq = _
          rw [ai_try_fallback, try_fallback_finalReq_foldl]
          cases hat : (try_fallback (fun r : AnswerGenerationRequest => r.provider)
              (fun r n => { r with provider := n }) provs ai_fallback_order
              req).attempts with
          | nil => rfl
          | cons a t =>
            rw [foldl_collapse (fun (r : AnswerGenerationRequest) n => { r with provider := n })
              (fun _ _ _ => rfl) (a :: t) req req.provider (by simp)]

/-- Witness for `c10_request_mutation`: with only a failing `local` provider
and no fallback attempted, the request ends up naming
`attempts.getLastD "local"` (here its original provider). -/
theorem c10_witness :
    ({ audio_data := "x".data, language := "en", provider := "local" } :
        TranscriptionRequest) =
      { (⟨"x".data, "en", "local"⟩ : TranscriptionRequest) with
        provider := (stt_try_fallback [("local", fun _ => Except.error ())]
          ⟨"x".data, "en", "local"⟩).attempts.getLastD "local" } :=
  (c10_request_mutation.2.1 [("local", fun _ => Except.error ())]
      ⟨"x".data, "en", "local"⟩ (.error (.allFailed "All STT providers failed"))
      ⟨"x".data, "en", "local"⟩ (by rfl)).2 "All STT providers failed" rfl

/-- Claim C7 (confirmed).  When every provider of one capability fails
(primary registered and failing, all fallbacks exhausted), the chunk's run
emits exactly one `error` event, whose message names the failed stage
(`"All STT/translation/AI providers failed"`), no events of later stages are
emitted, the corresponding later capabilities are not invoked, and the
session loop keeps processing subsequent chunks. -/
theorem c7_stage_failure_single_error (st : Settings)
    (sttProvs : List (String × (TranscriptionRequest → Except Unit SttRaw)))
    (trProvs : List (String × (TranslationRequest → Except Unit TranslationRaw)))
    (aiProvs : List (String × (AnswerGenerationRequest → Except Unit AnswerRaw)))
    (session : Session) (ad : List Char) :
    (ad ≠ [] → (plookup sttProvs st.stt_provider).isSome →
      (∀ p ∈ sttProvs, ∀ r, p.2 r = .error ()) →
      (process_audio_chunk st sttProvs trProvs aiProvs session (some ad)).events =
          [Event.error "Pipeline error" "All STT providers failed"] ∧
        (process_audio_chunk st sttProvs trProvs aiProvs session
          (some ad)).events.countP Event.isError = 1 ∧
        (∀ e ∈ (process_audio_chunk st sttProvs trProvs aiProvs session (some ad)).events,
          e.isTranslation = false ∧ e.isAnswer = false) ∧
        (process_audio_chunk st sttProvs trProvs aiProvs session (some ad)).translateCalled
          = false ∧
        (process_audio_chunk st sttProvs trProvs aiProvs session (some ad)).answerCalled
          = false) ∧
      (∀ tr rq, ad ≠ [] →
        stt_transcribe sttProvs (pipelineTranscriptionRequest st session ad) = (.ok tr, rq) →
        pyStrip tr.text ≠ [] → session.source_language ≠ session.target_language →
        (plookup trProvs st.translation_provider).isSome →
        (∀ p ∈ trProvs, ∀ r, p.2 r = .error ()) →
        (process_audio_chunk st sttProvs trProvs aiProvs session (some ad)).events =
            [Event.transcription tr.text tr.confidence tr.language,
              Event.error "Pipeline error" "All translation providers failed"] ∧
          (process_audio_chunk st sttProvs trProvs aiProvs session
            (some ad)).events.countP Event.isError = 1 ∧
          (∀ e ∈ (process_audio_chunk st sttProvs trProvs aiProvs session (some ad)).events,
            e.isTranslation = false ∧ e.isAnswer = false) ∧
          (process_audio_chunk st sttProvs trProvs aiProvs session (some ad)).answerCalled
            = false) ∧
      (∀ tr rq, ad ≠ [] →
        stt_transcribe sttProvs (pipelineTranscriptionRequest st session ad) = (.ok tr, rq) →
        pyStrip tr.text ≠ [] → session.source_language = session.target_language →
        (plookup aiProvs "openai").isSome →
        (∀ p ∈ aiProvs, ∀ r, p.2 r = .error ()) →
        (process_audio_chunk st sttProvs trProvs aiProvs session (some ad)).events =
            [Event.transcription tr.text tr.confidence tr.language,
              Event.error "Pipeline error" "All AI providers failed"] ∧
          (process_audio_chunk st sttProvs trProvs aiProvs session
            (some ad)).events.countP Event.isError = 1) ∧
      (∀ tr rq tl rqT, ad ≠ [] →
        stt_transcribe sttProvs (pipelineTranscriptionRequest st session ad) = (.ok tr, rq) →
        pyStrip tr.text ≠ [] → session.source_language ≠ session.target_language →
        translation_translate trProvs (pipelineTranslationRequest st session tr) =
          (.ok tl, rqT) →
        (plookup aiProvs "openai").isSome →
        (∀ p ∈ aiProvs, ∀ r, p.2 r = .error ()) →
        (process_audio_chunk st sttProvs trProvs aiProvs session (some ad)).events =
            [Event.transcription tr.text tr.confidence tr.language,
              Event.translation tl.original_text tl.translated_text tl.source_language
                tl.target_language tl.confidence,
              Event.error "Pipeline error" "All AI providers failed"] ∧
          (process_audio_chunk st sttProvs trProvs aiProvs session
            (some ad)).events.countP Event.isError = 1) ∧
      (∀ chunk chunks, handleChunks st sttProvs trProvs aiProvs session (chunk :: chunks) =
        (process_audio_chunk st sttProvs trProvs aiProvs session chunk).events ++
          handleChunks st sttProvs trProvs aiProvs session chunks) := by
  refine ⟨?_, ?_, ?_, ?_, fun chunk chunks => rfl⟩
  · intro had hreg hfail
    rcases hst : stt_transcribe sttProvs (pipelineTranscriptionRequest st session ad)
      with ⟨res, rqf⟩
    have hres : res = .error (.allFailed "All STT providers failed") := by
      have h2 := stt_transcribe_all_fail sttProvs
        (pipelineTranscriptionRequest st session ad) hreg hfail
      rw [hst] at h2
      exact h2
    subst hres
    simp only [process_audio_chunk, if_neg had, hst]
    refine ⟨by trivial, by trivial, ?_, by trivial, by trivial⟩
    intro e he
    simp only [List.mem_cons, List.not_mem_nil, or_false] at he
    subst he
    exact ⟨rfl, rfl⟩
  · intro tr rq had htr hne hneq hregT hfailT
    rcases htl : translation_translate trProvs (pipelineTranslationRequest st session tr)
      with ⟨resT, rqT⟩
    have hresT : resT = .error (.allFailed "All translation providers failed") := by
      have h2 := translation_translate_all_fail trProvs
        (pipelineTranslationRequest st session tr) hregT hfailT
      rw [htl] at h2
      exact h2
    subst hresT
    simp only [process_audio_chunk, if_neg had, htr, if_neg hne, if_pos hneq, htl]
    refine ⟨by trivial, by trivial, ?_, by trivial⟩
    intro e he
    simp only [List.mem_cons, List.not_mem_nil, or_false] at he
    rcases he with rfl | rfl
    · exact ⟨rfl, rfl⟩
    · exact ⟨rfl, rfl⟩
  · intro tr rq had htr hne heq hregA hfailA
    have hcond : ¬ session.source_language ≠ session.target_language := by simp [heq]
    rcases hai : ai_generate_answer aiProvs (pipelineAnswerRequest st session tr.text)
      with ⟨resA, rqA⟩
    have hresA : resA = .error (.allFailed "All AI providers failed") := by
      have h2 := ai_generate_answer_all_fail aiProvs
        (pipelineAnswerRequest st session tr.text) hregA hfailA
      rw [hai] at h2
      exact h2
    subst hresA
    simp only [process_audio_chunk, if_neg had, htr, if_neg hne, if_neg hcond, hai]
    exact ⟨by trivial, by trivial⟩
  · intro tr rq tl rqT had htr hne hneq htl hregA hfailA
    rcases hai : ai_generate_answer aiProvs
        (pipelineAnswerRequest st session tl.translated_text) with ⟨resA, rqA⟩
    have hresA : resA = .error (.allFailed "All AI providers failed") := by
      have h2 := ai_generate_answer_all_fail aiProvs
        (pipelineAnswerRequest st session tl.translated_text) hregA hfailA
      rw [hai] at h2
      exact h2
    subst hresA
    simp only [process_audio_chunk, if_neg had, htr, if_neg hne, if_pos hneq, htl, hai]
    exact ⟨by trivial, by trivial⟩

/-- Witness for `c7_stage_failure_single_error`: a failing `local`-only STT
registry surfaces exactly one error frame naming the STT stage, and a
translating session whose AI providers are exhausted surfaces the
transcription and translation frames followed by exactly the AI-stage error
frame. -/
theorem c7_witness :
    (process_audio_chunk ⟨"auto", "en", "local", "google", "professional", 150⟩
        [("local", fun _ => Except.error ())] [] [] ⟨"en", "en"⟩
        (some ("x".data))).events =
      [Event.error "Pipeline error" "All STT providers failed"] ∧
      (process_audio_chunk ⟨"auto", "en", "mock", "google", "professional", 150⟩
          [("mock", fun _ => Except.ok ⟨"hello".data, some (19/20), some "en"⟩)]
          [("google", fun _ => Except.ok ⟨"hola".data, some "en", some (19/20)⟩)]
          [("openai", fun _ => Except.error ())]
          ⟨"en", "zh"⟩ (some ("x".data))).events =
        [Event.transcription ("hello".data) (19/20) "en",
          Event.translation ("hello".data) ("hola".data) "en" "zh" (19/20),
          Event.error "Pipeline error" "All AI providers failed"] :=
  ⟨((c7_stage_failure_single_error ⟨"auto", "en", "local", "google", "professional", 150⟩
      [("local", fun _ => Except.error ())] [] [] ⟨"en", "en"⟩ ("x".data)).1
    (by decide) (by rfl)
    (by
      intro p hp r
      rw [List.mem_singleton] at hp
      subst hp
      rfl)).1,
    ((c7_stage_failure_single_error ⟨"auto", "en", "mock", "google", "professional", 150⟩
        [("mock", fun _ => Except.ok ⟨"hello".data, some (19/20), some "en"⟩)]
        [("google", fun _ => Except.ok ⟨"hola".data, some "en", some (19/20)⟩)]
        [("openai", fun _ => Except.error ())]
        ⟨"en", "zh"⟩ ("x".data)).2.2.2.1
      ⟨"hello".data, 19/20, "en", "mock"⟩
      (pipelineTranscriptionRequest ⟨"auto", "en", "mock", "google", "professional", 150⟩
        ⟨"en", "zh"⟩ ("x".data))
      ⟨"hello".data, "hola".data, "en", "zh", 19/20, "google"⟩
      (pipelineTranslationRequest ⟨"auto", "en", "mock", "google", "professional", 150⟩
        ⟨"en", "zh"⟩ ⟨"hello".data, 19/20, "en", "mock"⟩)
      (by decide) (by rfl) (by decide) (by decide) (by rfl) (by rfl)
      (by
        intro p hp r
        rw [List.mem_singleton] at hp
        subst hp
        rfl)).1⟩

/-- Claim C8, counterexample.  A global `/config/update` changing only the
default STT provider changes how the *already-open* session's next chunk is
processed (the pipeline reads `settings.stt_provider` at chunk time), so the
update is not limited to sessions created afterwards. -/
theorem c8_counterexample :
    process_audio_chunk ⟨"auto", "en", "mock", "google", "professional", 150⟩
        [("mock", fun _ => Except.ok ⟨"hello".data, some (19/20), some "en"⟩)] [] []
        ⟨"en", "en"⟩ (some ("x".data)) ≠
      process_audio_chunk
        (update_config ⟨"auto", "en", "mock", "google", "professional", 150⟩
          ⟨none, none, some "openai", none, none⟩)
        [("mock", fun _ => Except.ok ⟨"hello".data, some (19/20), some "en"⟩)] [] []
        ⟨"en", "en"⟩ (some ("x".data)) := by
  intro h
  have h2 := congrArg (fun r => r.events.length) h
  simp only at h2
  exact absurd h2 (by decide)

/-- Claim C8 (amended).  A pipeline run's behaviour for an open session is
unchanged by updates to the global default languages (sessions snapshot
languages at creation, and session-scoped `config_update` frames override
them); a global update with a non-empty language value is picked up by
sessions created afterwards, while empty-string values fail the endpoint's
truthiness guard and leave the settings unchanged; but the global
`stt_provider`, `translation_provider`, `answer_style` and
`answer_max_length` are read at each chunk, so updating them does affect
already-open sessions. -/
theorem c8_config_scope :
    (∀ st1 st2 : Settings, st1.stt_provider = st2.stt_provider →
        st1.translation_provider = st2.translation_provider →
        st1.answer_style = st2.answer_style →
        st1.answer_max_length = st2.answer_max_length →
        ∀ sttProvs trProvs aiProvs session audio,
          process_audio_chunk st1 sttProvs trProvs aiProvs session audio =
            process_audio_chunk st2 sttProvs trProvs aiProvs session audio) ∧
      (∀ st cfg v, cfg.source_language = some v → v ≠ "" →
        (createSession (update_config st cfg)).source_language = v) ∧
      (∀ st cfg v, cfg.target_language = some v → v ≠ "" →
        (createSession (update_config st cfg)).target_language = v) ∧
      (∀ st : Settings,
        update_config st ⟨some "", some "", some "", some "", some ""⟩ = st) ∧
      (∀ session tgt (v : String),
        ((update_session_config session (some v) tgt).1).source_language = v) ∧
      (∀ session src (v : String),
        ((update_session_config session src (some v)).1).target_language = v) := by
  refine ⟨?_, ?_, ?_, fun st => rfl, ?_, ?_⟩
  · intro st1 st2 h1 h2 h3 h4 sttProvs trProvs aiProvs session audio
    rcases st1 with ⟨a1, b1, c1, d1, e1, f1⟩
    rcases st2 with ⟨a2, b2, c2, d2, e2, f2⟩
    simp only at h1 h2 h3 h4
    subst h1
    subst h2
    subst h3
    subst h4
    rfl
  · intro st cfg v hv hne
    rcases cfg with ⟨s, t, sp, tp, asy⟩
    simp only at hv
    subst hv
    show (update_config st ⟨some v, t, sp, tp, asy⟩).default_source_language = v
    rcases t with _ | t <;> rcases sp with _ | sp <;> rcases tp with _ | tp <;>
      rcases asy with _ | asy <;>
      simp only [update_config, if_neg hne,
        apply_ite Settings.default_source_language, ite_self]
  · intro st cfg v hv hne
    rcases cfg with ⟨s, t, sp, tp, asy⟩
    simp only at hv
    subst hv
    show (update_config st ⟨s, some v, sp, tp, asy⟩).default_target_language = v
    rcases s with _ | s <;> rcases sp with _ | sp <;> rcases tp with _ | tp <;>
      rcases asy with _ | asy <;>
      simp only [update_config, if_neg hne,
        apply_ite Settings.default_target_language, ite_self]
  · intro session tgt v
    rcases tgt with _ | t <;> rfl
  · intro session src v
    rcases src with _ | s <;> rfl

/-- Witness for `c8_config_scope`: two settings differing only in default
languages process the same chunk identically for an open session. -/
theorem c8_witness :
    process_audio_chunk ⟨"auto", "en", "mock", "google", "professional", 150⟩
        [] [] [] ⟨"en", "en"⟩ none =
      process_audio_chunk ⟨"zh", "zh", "mock", "google", "professional", 150⟩
        [] [] [] ⟨"en", "en"⟩ none :=
  c8_config_scope.1 ⟨"auto", "en", "mock", "google", "professional", 150⟩
    ⟨"zh", "zh", "mock", "google", "professional", 150⟩ rfl rfl rfl rfl
    [] [] [] ⟨"en", "en"⟩ none

